import Mathlib

/-!
# GenZe: real-time room coordination and WebRTC signalling

A shallow embedding of the Socket.IO layer of `backend/server.js`
(`io.on('connection')` and the handlers it registers) together with the
two process-wide maps `activeRooms` and `connectedUsers`; of the `socketAuth`
middleware, the HTTP room creation and the memory cache of the same file; of
`SimpleDB` in `backend/database/db.js`; and of the signalling handlers of
`WebRTCService` in `my-project/src/lib/webrtc.js`.

Modelling conventions.

* A JavaScript `Map` is an association list in insertion order: `set` on a
  present key replaces the value in place, `set` on an absent key appends,
  `delete` removes the key, `values()` enumerates in list order.
* Connection ids, user ids and room ids are natural numbers.  Socket.IO room
  names form one namespace: every connection is a member of the room named by
  its own id, and `socket.join(roomId)` adds it to the room named `roomId`.
* Room ids are primary keys of `study_rooms` records and therefore truthy in
  JavaScript; `socket.currentRoom` is `none` while the field is unset.
* A Supabase call resolves to `{ data, error }` and never rejects (the client
  is created without `throwOnError`); the `data` of every call made by a
  handler is an input of the handler, `none` standing for `null`.
* A handler run is one atomic step returning the new server state, the events
  emitted (one item per receiving connection, in emission order) and the
  store calls made: each handler's awaits resolve before the next event is
  handled.  Timestamps are left out.
* The `content` of a `send-message` payload is missing (`undefined`, `null`),
  a string, or a value of another type.
* The cache computes its expiry times in IEEE-754 doubles; clock values and
  ttl arguments are integers, and every product and sum is rounded to the
  nearest double.
-/

namespace GenZe

/-! ## JavaScript `Map` -/

/-- Insertion-ordered map with natural-number keys. -/
abbrev JsMap (α : Type) := List (Nat × α)

namespace JsMap

variable {α : Type}

/-- Models `Map.prototype.get`: the value stored under `k`, if any. -/
def get? : JsMap α → Nat → Option α
  | [], _ => none
  | (k', v) :: t, k => if k' = k then some v else get? t k

/-- Models `Map.prototype.has`. -/
def has (m : JsMap α) (k : Nat) : Bool := (get? m k).isSome

/-- Models `Map.prototype.set`: replace in place when the key is present, append
otherwise. -/
def set : JsMap α → Nat → α → JsMap α
  | [], k, v => [(k, v)]
  | (k', v') :: t, k, v => if k' = k then (k, v) :: t else (k', v') :: set t k v

/-- Models `Map.prototype.delete`. -/
def delete (m : JsMap α) (k : Nat) : JsMap α := m.filter (fun p => decide (p.1 ≠ k))

/-- Keys in insertion order. -/
def keys (m : JsMap α) : List Nat := m.map Prod.fst

/-- Models `Map.prototype.values`, in insertion order. -/
def values (m : JsMap α) : List α := m.map Prod.snd

/-- Models `Map.prototype.size`. -/
def size (m : JsMap α) : Nat := m.length

end JsMap

/-! ## Data model -/

/-- The `userData` object built by `join-room` and stored in a room's
`users` map. -/
structure UserData where
  socketId : Nat
  userId : Nat
  username : String
  avatar : String
deriving DecidableEq, Repr

/-- The `user` object nested in a `new-message` payload. -/
structure MessageUser where
  id : Nat
  name : String
  avatar : String
deriving DecidableEq, Repr

/-- The `messageData` object built by `send-message`. -/
structure MessageData where
  id : Nat
  content : String
  user : MessageUser
  timestamp : Nat
deriving DecidableEq, Repr

/-- Value of `activeRooms`: `{ users: new Map(), messages: [], pinnedMessages: [] }`. -/
structure RoomData where
  users : JsMap UserData
  messages : List MessageData
  pinnedMessages : List Nat
deriving DecidableEq, Repr

/-- Value of `connectedUsers`. -/
structure ConnInfo where
  socketId : Nat
  userId : Nat
  email : String
deriving DecidableEq, Repr

/-- A live Socket.IO connection: `socket.id`, the fields set by `socketAuth`,
the `currentRoom` field set by `join-room`, and the room names added with
`socket.join` (membership of the room named by its own id is implicit). -/
structure Socket where
  id : Nat
  userId : Nat
  userEmail : String
  currentRoom : Option Nat
  joined : List Nat
deriving DecidableEq, Repr

/-- The server state: the two module-level maps and the live connections. -/
structure Server where
  activeRooms : JsMap RoomData
  connectedUsers : JsMap ConnInfo
  sockets : List Socket
deriving DecidableEq, Repr

/-- An access code as JavaScript sees it: `undefined`, `null` or a string. -/
inductive JsCode where
  | undefined
  | null
  | str (s : String)
deriving DecidableEq, Repr

/-- A `study_rooms` record. -/
structure RoomRecord where
  id : Nat
  created_by : Nat
  is_private : Bool
  access_code : JsCode
  max_participants : Nat
deriving DecidableEq, Repr

/-- A `user_profiles` row restricted to `name, avatar_url`. -/
structure Profile where
  name : Option String
  avatar_url : Option String
deriving DecidableEq, Repr

/-- The row returned by the `room_messages` insert. -/
structure StoredMessage where
  id : Nat
  created_at : Nat
deriving DecidableEq, Repr

/-- The row returned by the `pinned_messages` insert. -/
structure StoredPin where
  id : Nat
deriving DecidableEq, Repr

/-- Server-to-client events. `userLeft` carries `none` when the handler emits
`undefined`. -/
inductive Event where
  | error (message : String)
  | userJoined (entry : UserData)
  | userLeft (entry : Option UserData)
  | roomParticipants (list : List UserData)
  | newMessage (msg : MessageData)
  | messagePinned (id : Nat) (messageId : Nat)
  | webrtcSignal (signal : String) (fromSocketId : Nat)
deriving DecidableEq, Repr

/-- One delivery: the receiving connection and the event. -/
structure Emit where
  dest : Nat
  event : Event
deriving DecidableEq, Repr

/-- Store calls made by the handlers. -/
inductive DbCall where
  | selectRoom (roomId : Nat)
  | selectProfile (userId : Nat)
  | upsertParticipant (userId roomId : Nat)
  | insertRoomMessage (roomId userId : Nat) (message : String)
  | selectRoomOwner (roomId : Nat)
  | insertPinned (messageId roomId pinnedBy : Nat)
  | updateParticipantOffline (userId roomId : Nat)
deriving DecidableEq, Repr

/-- Result of one handler run. -/
structure Outcome where
  state : Server
  emits : List Emit
  db : List DbCall
deriving DecidableEq, Repr

/-! ## JavaScript helpers -/

/-- White space and line terminators stripped by `String.prototype.trim`. -/
def isJsWhitespace (c : Char) : Bool :=
  c.val = 0x09 || c.val = 0x0A || c.val = 0x0B || c.val = 0x0C || c.val = 0x0D ||
  c.val = 0x20 || c.val = 0xA0 || c.val = 0x1680 ||
  (0x2000 ≤ c.val && c.val ≤ 0x200A) ||
  c.val = 0x2028 || c.val = 0x2029 || c.val = 0x202F || c.val = 0x205F ||
  c.val = 0x3000 || c.val = 0xFEFF

/-- Models `String.prototype.trim`. -/
def jsTrim (s : String) : String :=
  String.mk ((s.data.dropWhile isJsWhitespace).reverse.dropWhile isJsWhitespace).reverse

/-- Models `x || d` for a nullable string: `null`, `undefined` and the empty string
are falsy. -/
def orDefault (x : Option String) (d : String) : String :=
  match x with
  | some s => if s = "" then d else s
  | none => d

/-- Models `profile?.name`. -/
def profileName (p : Option Profile) : Option String := p.bind (·.name)

/-- Models `profile?.avatar_url`. -/
def profileAvatar (p : Option Profile) : Option String := p.bind (·.avatar_url)

/-! ## Socket.IO primitives -/

/-- Membership of the Socket.IO room named `k`. -/
def inRoom (s : Socket) (k : Nat) : Bool := decide (k = s.id) || decide (k ∈ s.joined)

/-- Lookup of a live connection by id. -/
def findSocket (st : Server) (sid : Nat) : Option Socket :=
  st.sockets.find? (fun s => decide (s.id = sid))

/-- Models `socket.emit(ev)`: to the connection itself. -/
def socketEmit (sid : Nat) (ev : Event) : List Emit := [⟨sid, ev⟩]

/-- Models `socket.to(k).emit(ev)`: to every member of room `k` except the sender. -/
def socketTo (st : Server) (sender : Nat) (k : Nat) (ev : Event) : List Emit :=
  (st.sockets.filter (fun s => decide (s.id ≠ sender) && inRoom s k)).map (fun s => ⟨s.id, ev⟩)

/-- Models `io.to(k).emit(ev)`: to every member of room `k`. -/
def ioTo (st : Server) (k : Nat) (ev : Event) : List Emit :=
  (st.sockets.filter (fun s => inRoom s k)).map (fun s => ⟨s.id, ev⟩)

/-- Models `socket.join(k)`: room membership is a set. -/
def socketJoin (joined : List Nat) (k : Nat) : List Nat :=
  if k ∈ joined then joined else joined ++ [k]

/-! ## Handlers -/

/-- The `content` field of a `send-message` payload as the guard
`!content?.trim()` sees it: absent (`undefined` or `null`), a string, or any
other value that can arrive over the wire (number, boolean, array, object),
which has no `trim` method. -/
inductive Content where
  | missing
  | text (s : String)
  | other
deriving DecidableEq, Repr


/-- The state at start-up: both maps empty, no connection. -/
def init : Server := ⟨[], [], []⟩

/-- A fresh `RoomState`. -/
def freshRoom : RoomData := ⟨[], [], []⟩

/-- Models `io.on('connection')`: runs once per new connection, whose id Socket.IO
issues fresh; registers the user in `connectedUsers`. -/
def onConnection (st : Server) (sid uid : Nat) (email : String) : Outcome :=
  if (findSocket st sid).isSome then ⟨st, [], []⟩
  else
    ⟨{ st with
        connectedUsers := st.connectedUsers.set uid ⟨sid, uid, email⟩
        sockets := st.sockets ++ [⟨sid, uid, email, none, []⟩] }, [], []⟩

/-- The admission test of `join-room`: the record exists and, when private,
its `access_code` is strictly equal to the supplied code. -/
def admitted (room : Option RoomRecord) (accessCode : JsCode) : Bool :=
  match room with
  | none => false
  | some r => !(r.is_private && decide (r.access_code ≠ accessCode))

/-- Models `socket.on('join-room')`. -/
def onJoinRoom (st : Server) (sock : Socket) (roomId : Nat) (accessCode : JsCode)
    (room : Option RoomRecord) (profile : Option Profile) : Outcome :=
  match room with
  | none => ⟨st, socketEmit sock.id (.error "Room not found"), [.selectRoom roomId]⟩
  | some r =>
    if r.is_private && decide (r.access_code ≠ accessCode) then
      ⟨st, socketEmit sock.id (.error "Invalid access code"), [.selectRoom roomId]⟩
    else
      let userData : UserData :=
        ⟨sock.id, sock.userId, orDefault (profileName profile) "Unknown",
          orDefault (profileAvatar profile) "👤"⟩
      let rooms1 :=
        if st.activeRooms.has roomId then st.activeRooms
        else st.activeRooms.set roomId freshRoom
      let roomData := (rooms1.get? roomId).getD freshRoom
      let roomData2 := { roomData with users := roomData.users.set sock.userId userData }
      let st2 : Server :=
        { st with
          activeRooms := rooms1.set roomId roomData2
          sockets := st.sockets.map (fun s =>
            if s.id = sock.id then
              { s with joined := socketJoin s.joined roomId, currentRoom := some roomId }
            else s) }
      ⟨st2,
        socketTo st2 sock.id roomId (.userJoined userData) ++
          socketEmit sock.id (.roomParticipants roomData2.users.values),
        [.selectRoom roomId, .selectProfile sock.userId,
          .upsertParticipant sock.userId roomId]⟩

/-- Models `socket.on('send-message')`. -/
def onSendMessage (st : Server) (sock : Socket) (content : Content)
    (message : Option StoredMessage) (profile : Option Profile) : Outcome :=
  match sock.currentRoom with
  | none => ⟨st, [], []⟩
  | some r =>
    match content with
    | .missing => ⟨st, [], []⟩
    | .other => ⟨st, socketEmit sock.id (.error "Failed to send message"), []⟩
    | .text c =>
      if jsTrim c = "" then ⟨st, [], []⟩
      else
        let db := [DbCall.insertRoomMessage r sock.userId (jsTrim c),
          DbCall.selectProfile sock.userId]
        match message with
        | none => ⟨st, socketEmit sock.id (.error "Failed to send message"), db⟩
        | some m =>
          ⟨st, ioTo st r (.newMessage
              ⟨m.id, jsTrim c,
                ⟨sock.userId, orDefault (profileName profile) "Unknown",
                  orDefault (profileAvatar profile) "👤"⟩,
                m.created_at⟩), db⟩

/-- Models `socket.on('pin-message')`. -/
def onPinMessage (st : Server) (sock : Socket) (messageId : Nat)
    (room : Option RoomRecord) (pin : Option StoredPin) : Outcome :=
  match sock.currentRoom with
  | none => ⟨st, [], []⟩
  | some r =>
    match room with
    | none => ⟨st, socketEmit sock.id (.error "Failed to pin message"), [.selectRoomOwner r]⟩
    | some rec =>
      if rec.created_by ≠ sock.userId then
        ⟨st, socketEmit sock.id (.error "Only room owner can pin messages"),
          [.selectRoomOwner r]⟩
      else
        let db := [DbCall.selectRoomOwner r, DbCall.insertPinned messageId r sock.userId]
        match pin with
        | none => ⟨st, socketEmit sock.id (.error "Failed to pin message"), db⟩
        | some p => ⟨st, ioTo st r (.messagePinned p.id messageId), db⟩

/-- Models `socket.on('webrtc-signal')`. -/
def onWebrtcSignal (st : Server) (sock : Socket) (signal : String)
    (targetSocketId : Nat) : Outcome :=
  ⟨st, socketTo st sock.id targetSocketId (.webrtcSignal signal sock.id), []⟩

/-- Models `socket.on('disconnecting')`; afterwards Socket.IO drops the connection
from every room, so it is no longer live. -/
def onDisconnecting (st : Server) (sock : Socket) : Outcome :=
  let closed (rooms : JsMap RoomData) : Server :=
    { activeRooms := rooms
      connectedUsers := st.connectedUsers.delete sock.userId
      sockets := st.sockets.filter (fun s => decide (s.id ≠ sock.id)) }
  match sock.currentRoom with
  | none => ⟨closed st.activeRooms, [], []⟩
  | some r =>
    match st.activeRooms.get? r with
    | none => ⟨closed st.activeRooms, [], [.updateParticipantOffline sock.userId r]⟩
    | some roomData =>
      let userData := roomData.users.get? sock.userId
      let users2 := roomData.users.delete sock.userId
      let rooms2 :=
        if users2.size = 0 then st.activeRooms.delete r
        else st.activeRooms.set r { roomData with users := users2 }
      ⟨closed rooms2, socketTo st sock.id r (.userLeft userData),
        [.updateParticipantOffline sock.userId r]⟩

/-! ## Event traces -/

/-- One inbound socket event with the store results its handler reads. -/
inductive Input where
  | connection (sid uid : Nat) (email : String)
  | joinRoom (sid roomId : Nat) (accessCode : JsCode) (room : Option RoomRecord)
      (profile : Option Profile)
  | sendMessage (sid : Nat) (content : Content) (message : Option StoredMessage)
      (profile : Option Profile)
  | pinMessage (sid messageId : Nat) (room : Option RoomRecord) (pin : Option StoredPin)
  | webrtcSignal (sid : Nat) (signal : String) (targetSocketId : Nat)
  | disconnecting (sid : Nat)
deriving DecidableEq, Repr

/-- Dispatch of one event, run to completion: the store reads of a handler
are taken to resolve before the next event is handled, so the runs in which
another event lands between a handler's awaits are outside this relation. An
event naming no live connection has no handler to start. -/
def step (st : Server) (inp : Input) : Outcome :=
  match inp with
  | .connection sid uid email => onConnection st sid uid email
  | .joinRoom sid roomId code room profile =>
    match findSocket st sid with
    | some sock => onJoinRoom st sock roomId code room profile
    | none => ⟨st, [], []⟩
  | .sendMessage sid content message profile =>
    match findSocket st sid with
    | some sock => onSendMessage st sock content message profile
    | none => ⟨st, [], []⟩
  | .pinMessage sid messageId room pin =>
    match findSocket st sid with
    | some sock => onPinMessage st sock messageId room pin
    | none => ⟨st, [], []⟩
  | .webrtcSignal sid signal target =>
    match findSocket st sid with
    | some sock => onWebrtcSignal st sock signal target
    | none => ⟨st, [], []⟩
  | .disconnecting sid =>
    match findSocket st sid with
    | some sock => onDisconnecting st sock
    | none => ⟨st, [], []⟩

/-- The state after a sequence of events. -/
def run (st : Server) : List Input → Server
  | [] => st
  | inp :: rest => run (step st inp).state rest

/-- The `users` map of room `R`; a room without `RoomState` has no entry. -/
def presenceEntries (st : Server) (R : Nat) : JsMap UserData :=
  match st.activeRooms.get? R with
  | some rd => rd.users
  | none => []

/-- Presence keys of room `R`, in insertion order. -/
def presenceKeys (st : Server) (R : Nat) : List Nat := (presenceEntries st R).keys

/-! ## Specification-side definitions and sample runs -/

/-- Well-formedness of the connection table: connection ids are pairwise
distinct and a connection has joined the room its `currentRoom` names. -/
def WF (st : Server) : Prop :=
  (st.sockets.map (·.id)).Nodup ∧
    ∀ s ∈ st.sockets, ∀ R, s.currentRoom = some R → R ∈ s.joined

/-- The sockets after an admitted `join-room`. -/
def joinSockets (st : Server) (sock : Socket) (roomId : Nat) : List Socket :=
  st.sockets.map (fun s =>
    if s.id = sock.id then
      { s with joined := socketJoin s.joined roomId, currentRoom := some roomId }
    else s)

/-- The rooms after an admitted `join-room`. -/
def joinRooms (st : Server) (sock : Socket) (roomId : Nat) (profile : Option Profile) :
    JsMap RoomData :=
  let userData : UserData :=
    ⟨sock.id, sock.userId, orDefault (profileName profile) "Unknown",
      orDefault (profileAvatar profile) "👤"⟩
  let rooms1 :=
    if st.activeRooms.has roomId then st.activeRooms
    else st.activeRooms.set roomId freshRoom
  let roomData := (rooms1.get? roomId).getD freshRoom
  rooms1.set roomId { roomData with users := roomData.users.set sock.userId userData }

/-- A public room record, id 1, owned by user 1. -/
def roomOne : RoomRecord := ⟨1, 1, false, .null, 10⟩

/-- A public room record, id 2, owned by user 1. -/
def roomTwo : RoomRecord := ⟨2, 1, false, .null, 10⟩

/-- A private room record, id 3, owned by user 1, with an access code. -/
def roomThree : RoomRecord := ⟨3, 1, true, .str "s3cret", 10⟩

/-- Users 1, 2 and 3 connect as connections 10, 11 and 12 and all join room 1. -/
def threeInRoom : List Input :=
  [.connection 10 1 "a@x", .connection 11 2 "b@x", .connection 12 3 "c@x",
   .joinRoom 10 1 .null (some roomOne) none,
   .joinRoom 11 1 .null (some roomOne) none,
   .joinRoom 12 1 .null (some roomOne) none]

/-- The `userData` object `join-room` builds for a connection. -/
def joinUserData (sock : Socket) (profile : Option Profile) : UserData :=
  ⟨sock.id, sock.userId, orDefault (profileName profile) "Unknown",
    orDefault (profileAvatar profile) "👤"⟩

/-- Models `Array.from(roomData.users.values())` for room `R`. -/
def presenceList (st : Server) (R : Nat) : List UserData := (presenceEntries st R).values

/-- The presence entry of user `u` in room `R`, if any. -/
def presenceEntry (st : Server) (R u : Nat) : Option UserData := (presenceEntries st R).get? u

/-- The deliveries in `emits` addressed to connection `x`. -/
def deliveredTo (emits : List Emit) (x : Nat) : List Emit :=
  emits.filter (fun e => decide (e.dest = x))

/-- Whether an event is `message-pinned`. -/
def Event.isMessagePinned : Event → Bool
  | .messagePinned _ _ => true
  | _ => false

/-- The `messageData` object `send-message` builds. -/
def sendMessageData (sock : Socket) (c : String) (m : StoredMessage)
    (profile : Option Profile) : MessageData :=
  ⟨m.id, jsTrim c,
    ⟨sock.userId, orDefault (profileName profile) "Unknown",
      orDefault (profileAvatar profile) "👤"⟩,
    m.created_at⟩

/-- Connections 10 (user 1) and 11 (user 2); only 10 has joined room 1. -/
def oneInRoom : List Input :=
  [.connection 10 1 "a@x", .connection 11 2 "b@x",
   .joinRoom 10 1 .null (some roomOne) none]

/-- The rooms after `disconnecting` has run for a connection. -/
def leaveRooms (st : Server) (sock : Socket) : JsMap RoomData :=
  match sock.currentRoom with
  | none => st.activeRooms
  | some r =>
    match st.activeRooms.get? r with
    | none => st.activeRooms
    | some roomData =>
      if (roomData.users.delete sock.userId).size = 0 then st.activeRooms.delete r
      else st.activeRooms.set r { roomData with users := roomData.users.delete sock.userId }

/-- User 1 holds connections 10 and 11, user 2 holds connection 12; all three
join room 1, then connection 10 disconnects, which removes the entry of
user 1. -/
def twoTabsOneClosed : List Input :=
  [.connection 10 1 "a@x", .connection 11 1 "a@x", .connection 12 2 "b@x",
   .joinRoom 10 1 .null (some roomOne) none,
   .joinRoom 11 1 .null (some roomOne) none,
   .joinRoom 12 1 .null (some roomOne) none,
   .disconnecting 10]

/-- Whether an event is an admitted `join-room` of room `R` by a live
connection of `st`. -/
def isAdmittedJoinOf (st : Server) (R : Nat) : Input → Bool
  | .joinRoom sid roomId code room _ =>
    decide (roomId = R) && admitted room code && (findSocket st sid).isSome
  | _ => false

/-- Connection 10 of user 1 joins room 1 and disconnects, which tears the room
down. -/
def joinThenLeave : List Input :=
  [.connection 10 1 "a@x", .joinRoom 10 1 .null (some roomOne) none, .disconnecting 10,
   .connection 11 2 "b@x"]

/-- Connection 10 of user 1 joins room 1, then room 2, then disconnects. -/
def switchThenClose : List Input :=
  [.connection 10 1 "a@x",
   .joinRoom 10 1 .null (some roomOne) none,
   .joinRoom 10 2 .null (some roomTwo) none,
   .disconnecting 10]

/-- Whether an event is `new-message`. -/
def Event.isNewMessage : Event → Bool
  | .newMessage _ => true
  | _ => false

/-- Spec-side bookkeeping for one event: `L R u` is the id of the connection
that made the most recent admitted join of room `R` for user `u`. -/
def lastJoinStep (st : Server) (inp : Input) (L : Nat → Nat → Option Nat) :
    Nat → Nat → Option Nat :=
  match inp with
  | .joinRoom sid roomId code room _ =>
    match findSocket st sid with
    | some sock =>
      if admitted room code then
        fun R u => if R = roomId ∧ u = sock.userId then some sock.id else L R u
      else L
    | none => L
  | _ => L

/-- Spec-side bookkeeping of the most recent join along a sequence of events. -/
def lastJoinRun (st : Server) (L : Nat → Nat → Option Nat) :
    List Input → Nat → Nat → Option Nat
  | [] => L
  | inp :: rest => lastJoinRun (step st inp).state (lastJoinStep st inp L) rest

/-- Spec: the connection of the most recent admitted join of `R` by `u` in `evs`. -/
def lastJoin (evs : List Input) (R u : Nat) : Option Nat :=
  lastJoinRun init (fun _ _ => none) evs R u

/-- User 1 joins room 1 from connection 10, user 2 joins from connection 12,
then user 1 joins room 1 again from a second connection 11. -/
def rejoinOtherTab : List Input :=
  [.connection 10 1 "a@x", .connection 11 1 "a@x", .connection 12 2 "b@x",
   .joinRoom 10 1 .null (some roomOne) none,
   .joinRoom 12 1 .null (some roomOne) none,
   .joinRoom 11 1 .null (some roomOne) none]

/-- Models the effect on the in-memory state of `app.post('/api/study-rooms')`
for an authenticated request: a falsy `name` is answered 400 before any store
call; a `null` insert result makes `room.id` throw, which the handler answers
500; otherwise `activeRooms.set(room.id, ...)` stores a fresh `RoomState`. -/
def createStudyRoom (st : Server) (name : Option String) (room : Option RoomRecord) :
    Server :=
  match name with
  | none => st
  | some n =>
    if n = "" then st
    else
      match room with
      | none => st
      | some r => { st with activeRooms := st.activeRooms.set r.id freshRoom }

/-- A server handler run: a socket event or an HTTP room creation with the
row returned by the `study_rooms` insert. -/
inductive ServerEvent where
  | socket (inp : Input)
  | createRoom (name : Option String) (room : Option RoomRecord)
deriving DecidableEq, Repr

/-- The state after one handler run. -/
def stepAll (st : Server) : ServerEvent → Server
  | .socket inp => (step st inp).state
  | .createRoom name room => createStudyRoom st name room

/-- The state after a sequence of handler runs. -/
def runAll (st : Server) : List ServerEvent → Server
  | [] => st
  | ev :: rest => runAll (stepAll st ev) rest

/-- The room id an HTTP room creation stores in `activeRooms`, if it does. -/
def createdId : ServerEvent → Option Nat
  | .createRoom (some n) (some r) => if n = "" then none else some r.id
  | _ => none

/-- The room ids stored by the HTTP room creations of a sequence. -/
def createdIds (evs : List ServerEvent) : List Nat := evs.filterMap createdId

/-- User 1 opens connections 10 and 11, then the older connection 10 closes. -/
def olderTabClosed : List Input :=
  [.connection 10 1 "a@x", .connection 11 1 "a@x", .disconnecting 10]

/-- What invoking a socket listener with the client's first argument ends in:
the handler body ran to its end, or a `TypeError` left the listener (thrown by
a synchronous listener, or rejecting the promise of an `async` one) so that no
`catch` of the handler ran. -/
inductive Invocation where
  | completed (out : Outcome)
  | escaped
deriving DecidableEq, Repr

/-- The object a client sends with `join-room`. -/
structure JoinPayload where
  roomId : Nat
  accessCode : JsCode
deriving DecidableEq, Repr

/-- The object a client sends with `send-message`. -/
structure SendPayload where
  content : Content
deriving DecidableEq, Repr

/-- The object a client sends with `pin-message`. -/
structure PinPayload where
  messageId : Nat
deriving DecidableEq, Repr

/-- The object a client sends with `webrtc-signal`. -/
structure SignalPayload where
  signal : String
  targetSocketId : Nat
deriving DecidableEq, Repr

/-- The listener `async ({ roomId, accessCode }) => { try { ... } catch ... }`:
the parameter pattern is destructured before the `try` of the body is
entered, and destructuring `undefined` (`none`, no argument sent) throws. -/
def joinRoomListener (st : Server) (sock : Socket) (payload : Option JoinPayload)
    (room : Option RoomRecord) (profile : Option Profile) : Invocation :=
  match payload with
  | none => .escaped
  | some p => .completed (onJoinRoom st sock p.roomId p.accessCode room profile)

/-- The listener `async ({ content }) => { try { ... } catch ... }`. -/
def sendMessageListener (st : Server) (sock : Socket) (payload : Option SendPayload)
    (message : Option StoredMessage) (profile : Option Profile) : Invocation :=
  match payload with
  | none => .escaped
  | some p => .completed (onSendMessage st sock p.content message profile)

/-- The listener `async ({ messageId }) => { try { ... } catch ... }`. -/
def pinMessageListener (st : Server) (sock : Socket) (payload : Option PinPayload)
    (room : Option RoomRecord) (pin : Option StoredPin) : Invocation :=
  match payload with
  | none => .escaped
  | some p => .completed (onPinMessage st sock p.messageId room pin)

/-- The listener `({ signal, targetSocketId }) => { ... }`, which has no `try`. -/
def webrtcSignalListener (st : Server) (sock : Socket) (payload : Option SignalPayload) :
    Invocation :=
  match payload with
  | none => .escaped
  | some p => .completed (onWebrtcSignal st sock p.signal p.targetSocketId)

/-- The payload of a verified token, as far as `socketAuth` reads it. -/
structure TokenPayload where
  id : Nat
  email : String
deriving DecidableEq, Repr

/-- What `socketAuth` passes to `next`: an `Error`, or nothing after having
set `socket.userId` and `socket.userEmail`. -/
inductive AuthOutcome where
  | refused (message : String)
  | accepted (userId : Nat) (userEmail : String)
deriving DecidableEq, Repr

/-- The middleware `socketAuth`. `token` is `socket.handshake.auth.token`
(`none` when absent, and the empty string is falsy too); `verify` stands for
`jwt.verify(token, JWT_SECRET)`, `none` when it throws. -/
def socketAuth (verify : String → Option TokenPayload) (token : Option String) :
    AuthOutcome :=
  match token with
  | none => .refused "Authentication error"
  | some t =>
    if t = "" then .refused "Authentication error"
    else
      match verify t with
      | some user => .accepted user.id user.email
      | none => .refused "Authentication error"

/-- A handshake under `io.use(socketAuth)`: the `connection` listener runs,
and registers the message handlers, only when the middleware called `next`
without an error. -/
def onHandshake (verify : String → Option TokenPayload) (st : Server) (sid : Nat)
    (token : Option String) : Outcome :=
  match socketAuth verify token with
  | .refused _ => ⟨st, [], []⟩
  | .accepted uid email => onConnection st sid uid email

/-- A token check that accepts exactly the token `good`. -/
def sampleVerify (t : String) : Option TokenPayload :=
  if t = "good" then some ⟨7, "g@x"⟩ else none

/-- Connection 10 of user 1 joins room 1 and then room 2; connection 11 of
user 2 joins room 1. -/
def movedOnThenNewcomer : List Input :=
  [.connection 10 1 "a@x", .connection 11 2 "b@x",
   .joinRoom 10 1 .null (some roomOne) none,
   .joinRoom 10 2 .null (some roomTwo) none,
   .joinRoom 11 1 .null (some roomOne) none]

/-! ## The response cache and the development database -/

/-- A JavaScript number as the cache computes with it: a finite double whose
value is an integer, or an infinity. -/
inductive JsNum where
  | finite (n : Int)
  | posInf
  | negInf
deriving DecidableEq, Repr

/-- The number of low bits a magnitude has beyond the 53 bits of a double's
significand (counted with `fuel` halvings at most). -/
def excessBits : Nat → Nat → Nat
  | 0, _ => 0
  | fuel + 1, a => if a < 2 ^ 53 then 0 else excessBits fuel (a / 2) + 1

/-- The least magnitude that overflows a double, `2 ^ 1024`. -/
def doubleOverflow : Nat := 2 ^ 256 * 2 ^ 256 * 2 ^ 256 * 2 ^ 256

/-- IEEE-754 rounding of an exact integer result to a double: to the nearest
value with a 53-bit significand, ties to the even significand, and to an
infinity when the rounded magnitude reaches `2 ^ 1024`. -/
def roundToDouble (n : Int) : JsNum :=
  if n.natAbs < 2 ^ 53 then .finite n
  else
    let e := excessBits 1100 n.natAbs
    let q := n.natAbs / 2 ^ e
    let r := n.natAbs % 2 ^ e
    let q2 := if 2 ^ (e - 1) < r ∨ (r = 2 ^ (e - 1) ∧ q % 2 = 1) then q + 1 else q
    if doubleOverflow ≤ q2 * 2 ^ e then (if n < 0 then .negInf else .posInf)
    else .finite (if n < 0 then -((q2 * 2 ^ e : Nat) : Int) else ((q2 * 2 ^ e : Nat) : Int))

/-- Models `now + x` in doubles, for an integer `now`. -/
def jsPlus (now : Int) : JsNum → JsNum
  | .finite p => roundToDouble (now + p)
  | .posInf => .posInf
  | .negInf => .negInf

/-- Models `x > now` in doubles, for an integer `now`. -/
def jsGreater : JsNum → Int → Bool
  | .finite e, now => decide (e > now)
  | .posInf, _ => true
  | .negInf, _ => false

/-- Value of `memoryCache`: the serialised value and its expiry time in
milliseconds. -/
structure CacheEntry where
  value : String
  expires : JsNum
deriving DecidableEq, Repr

/-- Models `cache.get(key)` in the branch taken while `redisClient` is `null`
or not ready; `now` is `Date.now()`. Cache keys, strings in the source, are
coded as numbers. Returns the result and the new `memoryCache`. -/
def cache.get (m : JsMap CacheEntry) (key : Nat) (now : Int) :
    Option String × JsMap CacheEntry :=
  match m.get? key with
  | some cached =>
    if jsGreater cached.expires now then (some cached.value, m) else (none, m.delete key)
  | none => (none, m.delete key)

/-- Models `cache.set(key, value, ttl = 300)` in the branch taken while
`redisClient` is `null` or not ready; `stringify` stands for `JSON.stringify`
on the values it turns into a string, `now` is `Date.now()`, `ttl` is an
integer number of seconds (`none` for an omitted argument) and
`Date.now() + (ttl * 1000)` is computed in doubles: the product is rounded,
then the sum. -/
def cache.set {V : Type} (stringify : V → String) (m : JsMap CacheEntry) (key : Nat)
    (value : V) (ttl : Option Int) (now : Int) : JsMap CacheEntry :=
  m.set key ⟨stringify value, jsPlus now (roundToDouble (ttl.getD 300 * 1000))⟩

/-- Models `cache.del(key)` while `redisClient` is `null` or not ready. -/
def cache.del (m : JsMap CacheEntry) (key : Nat) : JsMap CacheEntry := m.delete key

/-- A record of `SimpleDB`: its `id` and, standing for the other fields, a
name. -/
structure DbRecord where
  id : Nat
  name : String
deriving DecidableEq, Repr

/-- The object `SimpleDB`: `this.tables` (table name to records) and
`this.nextId`. -/
structure SimpleDB where
  tables : List (String × List DbRecord)
  nextId : Nat
deriving DecidableEq, Repr

namespace SimpleDB

/-- The tables `loadData` sets up when there is no data file. -/
def emptyTables : List (String × List DbRecord) :=
  [("users", []), ("user_profiles", []), ("user_settings", []), ("user_stats", []),
   ("study_rooms", []), ("room_participants", []), ("room_messages", []),
   ("direct_messages", []), ("social_posts", []), ("post_likes", []),
   ("study_groups", []), ("group_members", []), ("user_tasks", [])]

/-- Models `this.tables[table]`. -/
def table (tables : List (String × List DbRecord)) (name : String) :
    Option (List DbRecord) :=
  (tables.find? (fun t => decide (t.1 = name))).map (·.2)

/-- Models `this.tables[table] = records`. -/
def setTable : List (String × List DbRecord) → String → List DbRecord →
    List (String × List DbRecord)
  | [], name, records => [(name, records)]
  | (n, rs) :: rest, name, records =>
    if n = name then (name, records) :: rest else (n, rs) :: setTable rest name records

/-- Models `getNextId`: one more than the largest id held in any table. -/
def getNextId (tables : List (String × List DbRecord)) : Nat :=
  tables.foldl (fun maxId t =>
    t.2.foldl (fun acc r => if r.id ≠ 0 ∧ r.id > acc then r.id else acc) maxId) 0 + 1

/-- The three default rooms of `initializeData`. -/
def defaultRooms : List DbRecord :=
  [⟨1, "Silent Study Hall"⟩, ⟨2, "Pomodoro Power"⟩, ⟨3, "Study Café"⟩]

/-- Models `initializeData`: fills `study_rooms` when it is empty. -/
def initializeData (db : SimpleDB) : SimpleDB :=
  match table db.tables "study_rooms" with
  | some [] => { db with tables := setTable db.tables "study_rooms" defaultRooms }
  | _ => db

/-- The constructor run without a data file: `loadData`, then
`this.nextId = this.getNextId()`, then `initializeData`. -/
def create : SimpleDB :=
  initializeData ⟨emptyTables, getNextId emptyTables⟩

/-- Models `insert(table, data)` for data without an `id` field: returns the
new database and the stored record. -/
def insert (db : SimpleDB) (tbl : String) (name : String) : SimpleDB × DbRecord :=
  let record : DbRecord := ⟨db.nextId, name⟩
  let old := (table db.tables tbl).getD []
  (⟨setTable db.tables tbl (old ++ [record]), db.nextId + 1⟩, record)

/-- Models `findById(table, id)`. -/
def findById (db : SimpleDB) (tbl : String) (id : Nat) : Option DbRecord :=
  match table db.tables tbl with
  | none => none
  | some records => records.find? (fun r => decide (r.id = id))

end SimpleDB

/-! ## The client's peer negotiation (`WebRTCService`) -/

/-- An `RTCPeerConnection` held in `peerConnections`: `id` is the object's
identity (construction order), `peer` the connection id it was created for,
`initiator` the `isInitiator` argument of its creation. -/
structure PeerSession where
  id : Nat
  peer : Nat
  initiator : Bool
deriving DecidableEq, Repr

/-- The state of `WebRTCService`: the map `peerConnections`, keyed by connection
id, and the number of `RTCPeerConnection` objects constructed so far. -/
structure Client where
  peerConnections : JsMap PeerSession
  constructed : Nat
deriving DecidableEq, Repr

/-- The `type` field of a signal. -/
inductive SignalType where
  | offer
  | answer
  | iceCandidate
  | unknown
deriving DecidableEq, Repr

/-- Whether each browser call made during one handler run succeeds (`false`:
the call throws or its promise rejects). -/
structure Browser where
  construct : Bool
  createOffer : Bool
  createAnswer : Bool
  setLocalDescription : Bool
  setRemoteDescription : Bool
  addIceCandidate : Bool
deriving DecidableEq, Repr

/-- What a handler of `WebRTCService` does to the outside, in order: calls on a
peer session (named by its identity), signals handed to
`socketService.sendWebRTCSignal`, and events emitted to the service's own
listeners. -/
inductive ClientEffect where
  | createOffer (session : Nat)
  | createAnswer (session : Nat)
  | setLocalDescription (session : Nat)
  | setRemoteDescription (session : Nat)
  | addIceCandidate (session : Nat)
  | close (session : Nat)
  | sendWebRTCSignal (type : SignalType) (target : Nat)
  | emitError (type : String) (socketId : Nat)
  | emitPeerDisconnected (socketId : Nat)
deriving DecidableEq, Repr

/-- Result of one run of a client handler; `session` is the value
`createPeerConnection` returns (`none` for `null`). -/
structure ClientOutcome where
  state : Client
  effects : List ClientEffect
  session : Option PeerSession
deriving DecidableEq, Repr

/-- Models `createPeerConnection(socketId, isInitiator)`. -/
def createPeerConnection (c : Client) (b : Browser) (socketId : Nat) (isInitiator : Bool) :
    ClientOutcome :=
  if !b.construct then ⟨c, [.emitError "peerConnection" socketId], none⟩
  else
    let pc : PeerSession := ⟨c.constructed, socketId, isInitiator⟩
    let c1 : Client := ⟨c.peerConnections.set socketId pc, c.constructed + 1⟩
    if isInitiator then
      if !b.createOffer then
        ⟨c1, [.createOffer pc.id, .emitError "peerConnection" socketId], none⟩
      else if !b.setLocalDescription then
        ⟨c1, [.createOffer pc.id, .setLocalDescription pc.id,
          .emitError "peerConnection" socketId], none⟩
      else
        ⟨c1, [.createOffer pc.id, .setLocalDescription pc.id,
          .sendWebRTCSignal .offer socketId], some pc⟩
    else ⟨c1, [], some pc⟩

/-- The `switch (signal.type)` of `handleSignal`, run on the session `pc`. -/
def handleSignalOn (c : Client) (b : Browser) (pc : PeerSession) (type : SignalType)
    (fromSocketId : Nat) : ClientOutcome :=
  match type with
  | .offer =>
    if !b.setRemoteDescription then
      ⟨c, [.setRemoteDescription pc.id, .emitError "signaling" fromSocketId], none⟩
    else if !b.createAnswer then
      ⟨c, [.setRemoteDescription pc.id, .createAnswer pc.id,
        .emitError "signaling" fromSocketId], none⟩
    else if !b.setLocalDescription then
      ⟨c, [.setRemoteDescription pc.id, .createAnswer pc.id, .setLocalDescription pc.id,
        .emitError "signaling" fromSocketId], none⟩
    else
      ⟨c, [.setRemoteDescription pc.id, .createAnswer pc.id, .setLocalDescription pc.id,
        .sendWebRTCSignal .answer fromSocketId], none⟩
  | .answer =>
    if !b.setRemoteDescription then
      ⟨c, [.setRemoteDescription pc.id, .emitError "signaling" fromSocketId], none⟩
    else ⟨c, [.setRemoteDescription pc.id], none⟩
  | .iceCandidate =>
    if !b.addIceCandidate then
      ⟨c, [.addIceCandidate pc.id, .emitError "signaling" fromSocketId], none⟩
    else ⟨c, [.addIceCandidate pc.id], none⟩
  | .unknown => ⟨c, [], none⟩

/-- Models `handleSignal(signal, fromSocketId)`. -/
def handleSignal (c : Client) (b : Browser) (type : SignalType) (fromSocketId : Nat) :
    ClientOutcome :=
  match c.peerConnections.get? fromSocketId with
  | some pc => handleSignalOn c b pc type fromSocketId
  | none =>
    let made := createPeerConnection c b fromSocketId false
    match made.session with
    | none => ⟨made.state, made.effects, none⟩
    | some pc =>
      let rest := handleSignalOn made.state b pc type fromSocketId
      ⟨rest.state, made.effects ++ rest.effects, none⟩

/-- Models `removePeerConnection(socketId)`. -/
def removePeerConnection (c : Client) (socketId : Nat) : ClientOutcome :=
  match c.peerConnections.get? socketId with
  | some pc =>
    ⟨{ c with peerConnections := c.peerConnections.delete socketId },
      [.close pc.id, .emitPeerDisconnected socketId], none⟩
  | none => ⟨c, [], none⟩

/-- The events of `socketService` as `WebRTCService` sees them. -/
inductive ClientEvent where
  | userJoined (socketId : Nat)
  | userLeft (socketId : Nat)
  | webrtcSignal (type : SignalType) (fromSocketId : Nat)
  | roomParticipants (socketIds : List Nat)
deriving DecidableEq, Repr

/-- The listeners registered by one run of `setupSocketListeners`, each run
once for its event; `roomParticipants` has none. -/
def clientStep (c : Client) (b : Browser) : ClientEvent → ClientOutcome
  | .userJoined s => createPeerConnection c b s true
  | .userLeft s => removePeerConnection c s
  | .webrtcSignal type f => handleSignal c b type f
  | .roomParticipants _ => ⟨c, [], none⟩

/-- The signals among the effects, as (type, target) in sending order. -/
def sentSignals : List ClientEffect → List (SignalType × Nat)
  | [] => []
  | .sendWebRTCSignal type target :: rest => (type, target) :: sentSignals rest
  | _ :: rest => sentSignals rest

/-- A browser in which every call succeeds. -/
def browserOk : Browser := ⟨true, true, true, true, true, true⟩

/-- A browser that rejects `setRemoteDescription`. -/
def browserBadRemote : Browser := ⟨true, true, true, true, false, true⟩

/-- A client holding sessions for connections 20 and 21. -/
def twoPeers : Client := ⟨[(20, ⟨0, 20, true⟩), (21, ⟨1, 21, false⟩)], 2⟩

/-- A browser in which `new RTCPeerConnection` throws. -/
def browserNoConstruct : Browser := ⟨false, true, true, true, true, true⟩

/-- Models the delivery of one `socketService` event to a `WebRTCService` whose
`setupSocketListeners` has run `n` times: every run appends its listeners to
`socketService` and `cleanup` removes none of them, so the listener of the
event runs `n` times. The effects are listed run by run, each run on the state
the previous one left; the order in which the awaits of different runs resume
is not modelled. -/
def clientDispatch : Nat → Client → Browser → ClientEvent → Client × List ClientEffect
  | 0, c, _, _ => (c, [])
  | n + 1, c, b, ev =>
    ((clientDispatch n (clientStep c b ev).state b ev).1,
      (clientStep c b ev).effects ++ (clientDispatch n (clientStep c b ev).state b ev).2)

/-! ## Lemmas on `JsMap` -/

namespace JsMap

variable {α : Type}

theorem get?_set_self (m : JsMap α) (k : Nat) (v : α) : get? (set m k v) k = some v := by
  induction m with
  | nil => simp [set, get?]
  | cons p t ih =>
    obtain ⟨k', v'⟩ := p
    by_cases h : k' = k
    · simp [set, get?, h]
    · simp [set, get?, h, ih]

theorem get?_set_ne (m : JsMap α) (k k' : Nat) (v : α) (h : k' ≠ k) :
    get? (set m k v) k' = get? m k' := by
  induction m with
  | nil => simp [set, get?, Ne.symm h]
  | cons p t ih =>
    obtain ⟨k0, v0⟩ := p
    by_cases h0 : k0 = k
    · subst h0
      simp [set, get?, Ne.symm h]
    · by_cases h1 : k0 = k'
      · subst h1
        simp [set, get?, h0]
      · simp [set, get?, h0, h1, ih]

theorem get?_delete_self (m : JsMap α) (k : Nat) : get? (delete m k) k = none := by
  induction m with
  | nil => simp [delete, get?]
  | cons p t ih =>
    obtain ⟨k0, v0⟩ := p
    by_cases h0 : k0 = k
    · simpa [delete, List.filter_cons, h0] using ih
    · simpa [delete, List.filter_cons, h0, get?] using ih

theorem get?_delete_ne (m : JsMap α) (k k' : Nat) (h : k' ≠ k) :
    get? (delete m k) k' = get? m k' := by
  induction m with
  | nil => simp [delete, get?]
  | cons p t ih =>
    obtain ⟨k0, v0⟩ := p
    by_cases h0 : k0 = k
    · subst h0
      have h1 : ¬ k0 = k' := fun e => h e.symm
      simpa [delete, List.filter_cons, get?, h1] using ih
    · by_cases h1 : k0 = k'
      · subst h1
        simp [delete, List.filter_cons, h0, get?]
      · simpa [delete, List.filter_cons, h0, get?, h1] using ih

theorem mem_keys_set (m : JsMap α) (k x : Nat) (v : α) :
    x ∈ keys (set m k v) ↔ x = k ∨ x ∈ keys m := by
  induction m with
  | nil => simp [set, keys]
  | cons p t ih =>
    obtain ⟨k0, v0⟩ := p
    by_cases h0 : k0 = k
    · subst h0
      simp [set, keys]
    · have ih2 : x ∈ List.map Prod.fst (set t k v) ↔ x = k ∨ x ∈ List.map Prod.fst t := ih
      simp only [set, h0, if_false, keys, List.map_cons, List.mem_cons, ih2]
      tauto

theorem mem_keys_delete (m : JsMap α) (k x : Nat) :
    x ∈ keys (delete m k) ↔ x ≠ k ∧ x ∈ keys m := by
  simp only [keys, delete, List.mem_map, List.mem_filter, decide_eq_true_eq]
  constructor
  · rintro ⟨p, ⟨hp, hne⟩, rfl⟩
    exact ⟨hne, p, hp, rfl⟩
  · rintro ⟨hne, p, hp, rfl⟩
    exact ⟨p, ⟨hp, hne⟩, rfl⟩

theorem get?_eq_none_iff (m : JsMap α) (k : Nat) : get? m k = none ↔ k ∉ keys m := by
  induction m with
  | nil => simp [get?, keys]
  | cons p t ih =>
    obtain ⟨k0, v0⟩ := p
    have ih2 : get? t k = none ↔ k ∉ List.map Prod.fst t := ih
    by_cases h0 : k0 = k
    · simp [get?, keys, h0]
    · have h1 : ¬ k = k0 := fun e => h0 e.symm
      simp [get?, keys, h0, h1, ih2]

theorem keys_set_of_mem (m : JsMap α) (k : Nat) (v : α) (h : k ∈ keys m) :
    keys (set m k v) = keys m := by
  induction m with
  | nil => simp [keys] at h
  | cons p t ih =>
    obtain ⟨k0, v0⟩ := p
    by_cases h0 : k0 = k
    · simp [set, keys, h0]
    · have h1 : ¬ k = k0 := fun e => h0 e.symm
      have ht : k ∈ keys t := by simpa [keys, h1] using h
      have := ih ht
      simp only [keys] at this
      simp [set, keys, h0, this]

theorem set_of_not_mem (m : JsMap α) (k : Nat) (v : α) (h : k ∉ keys m) :
    set m k v = m ++ [(k, v)] := by
  induction m with
  | nil => simp [set]
  | cons p t ih =>
    obtain ⟨k0, v0⟩ := p
    have h0 : ¬ k0 = k := fun e => h (by simp [keys, e])
    have ht : k ∉ keys t := fun e => h (by simp only [keys] at e; simp [keys, e])
    simp [set, h0, ih ht]

end JsMap

/-! ## Lemmas on the handlers -/

theorem findSocket_some {st : Server} {sid : Nat} {sock : Socket}
    (h : findSocket st sid = some sock) : sock ∈ st.sockets ∧ sock.id = sid := by
  unfold findSocket at h
  have h1 := List.mem_of_find?_eq_some h
  have h2 := List.find?_some h
  exact ⟨h1, by simpa using h2⟩

theorem findSocket_none {st : Server} {sid : Nat}
    (h : findSocket st sid = none) : ∀ s ∈ st.sockets, s.id ≠ sid := by
  unfold findSocket at h
  intro s hs
  have := List.find?_eq_none.mp h s hs
  simpa using this

theorem mem_socketJoin (joined : List Nat) (k x : Nat) :
    x ∈ socketJoin joined k ↔ x = k ∨ x ∈ joined := by
  unfold socketJoin
  by_cases h : k ∈ joined
  · simp only [h, if_true]
    constructor
    · exact Or.inr
    · rintro (rfl | h1)
      · exact h
      · exact h1
  · simp only [h, if_false, List.mem_append, List.mem_singleton]
    tauto

theorem onSendMessage_state (st : Server) (sock : Socket) (content : Content)
    (message : Option StoredMessage) (profile : Option Profile) :
    (onSendMessage st sock content message profile).state = st := by
  unfold onSendMessage
  cases sock.currentRoom <;> cases content <;> cases message <;> simp <;> split <;> rfl

theorem onPinMessage_state (st : Server) (sock : Socket) (messageId : Nat)
    (room : Option RoomRecord) (pin : Option StoredPin) :
    (onPinMessage st sock messageId room pin).state = st := by
  unfold onPinMessage
  cases sock.currentRoom <;> cases room <;> cases pin <;> simp <;> split <;> rfl

theorem onWebrtcSignal_state (st : Server) (sock : Socket) (signal : String) (t : Nat) :
    (onWebrtcSignal st sock signal t).state = st := rfl

theorem onJoinRoom_rejected (st : Server) (sock : Socket) (roomId : Nat) (code : JsCode)
    (room : Option RoomRecord) (profile : Option Profile) (h : admitted room code = false) :
    (onJoinRoom st sock roomId code room profile).state = st := by
  unfold onJoinRoom
  cases room with
  | none => rfl
  | some r =>
    simp only [admitted, Bool.not_eq_false'] at h
    simp only []
    rw [if_pos h]

theorem onJoinRoom_admitted (st : Server) (sock : Socket) (roomId : Nat) (code : JsCode)
    (room : Option RoomRecord) (profile : Option Profile) (h : admitted room code = true) :
    (onJoinRoom st sock roomId code room profile).state =
      { st with activeRooms := joinRooms st sock roomId profile,
                sockets := joinSockets st sock roomId } := by
  unfold onJoinRoom
  cases room with
  | none => simp [admitted] at h
  | some r =>
    simp only [admitted, Bool.not_eq_true'] at h
    simp only []
    rw [if_neg (by rw [h]; exact Bool.false_ne_true)]
    rfl

theorem joinSockets_ids (st : Server) (sock : Socket) (roomId : Nat) :
    (joinSockets st sock roomId).map (·.id) = st.sockets.map (·.id) := by
  unfold joinSockets
  rw [List.map_map]
  apply List.map_congr_left
  intro s _
  by_cases h : s.id = sock.id <;> simp [h]

theorem onDisconnecting_sockets (st : Server) (sock : Socket) :
    (onDisconnecting st sock).state.sockets =
      st.sockets.filter (fun s => decide (s.id ≠ sock.id)) := by
  unfold onDisconnecting
  cases sock.currentRoom with
  | none => rfl
  | some r =>
    simp only
    cases st.activeRooms.get? r <;> rfl

theorem WF_init : WF init := by
  simp [WF, init]

theorem WF_step (st : Server) (inp : Input) (h : WF st) : WF (step st inp).state := by
  obtain ⟨hnd, hcur⟩ := h
  cases inp with
  | connection sid uid email =>
    simp only [step, onConnection]
    cases hf : findSocket st sid with
    | some s => simpa using ⟨hnd, hcur⟩
    | none =>
      have hne := findSocket_none hf
      simp only [Option.isSome_none, Bool.false_eq_true, if_false]
      refine ⟨?_, ?_⟩
      · simp only [List.map_append, List.map_cons, List.map_nil]
        rw [List.nodup_append]
        refine ⟨hnd, List.nodup_singleton _, ?_⟩
        intro a ha hb
        simp only [List.mem_singleton] at hb
        subst hb
        obtain ⟨s, hs, rfl⟩ := List.mem_map.mp ha
        exact hne s hs rfl
      · intro s hs R hR
        rcases List.mem_append.mp hs with hs | hs
        · exact hcur s hs R hR
        · simp only [List.mem_singleton] at hs
          subst hs
          simp at hR
  | joinRoom sid roomId code room profile =>
    simp only [step]
    cases hf : findSocket st sid with
    | none => exact ⟨hnd, hcur⟩
    | some sock =>
      simp only
      cases ha : admitted room code with
      | false => rw [onJoinRoom_rejected _ _ _ _ _ _ ha]; exact ⟨hnd, hcur⟩
      | true =>
        rw [onJoinRoom_admitted _ _ _ _ _ _ ha]
        refine ⟨?_, ?_⟩
        · simp only [joinSockets_ids]; exact hnd
        · intro s hs R hR
          simp only [joinSockets, List.mem_map] at hs
          obtain ⟨s0, hs0, rfl⟩ := hs
          by_cases hid : s0.id = sock.id
          · simp only [hid, if_true] at hR ⊢
            simp only [Option.some.injEq] at hR
            subst hR
            exact (mem_socketJoin _ _ _).mpr (Or.inl rfl)
          · simp only [hid, if_false] at hR ⊢
            exact hcur s0 hs0 R hR
  | sendMessage sid content message profile =>
    simp only [step]
    cases hf : findSocket st sid with
    | none => exact ⟨hnd, hcur⟩
    | some sock => simp only [onSendMessage_state]; exact ⟨hnd, hcur⟩
  | pinMessage sid messageId room pin =>
    simp only [step]
    cases hf : findSocket st sid with
    | none => exact ⟨hnd, hcur⟩
    | some sock => simp only [onPinMessage_state]; exact ⟨hnd, hcur⟩
  | webrtcSignal sid signal target =>
    simp only [step]
    cases hf : findSocket st sid with
    | none => exact ⟨hnd, hcur⟩
    | some sock => exact ⟨hnd, hcur⟩
  | disconnecting sid =>
    simp only [step]
    cases hf : findSocket st sid with
    | none => exact ⟨hnd, hcur⟩
    | some sock =>
      simp only
      refine ⟨?_, ?_⟩
      · rw [onDisconnecting_sockets]
        exact (List.filter_sublist _).map _ |>.nodup hnd
      · intro s hs R hR
        rw [onDisconnecting_sockets] at hs
        exact hcur s (List.mem_filter.mp hs).1 R hR

theorem WF_run (evs : List Input) (st : Server) (h : WF st) : WF (run st evs) := by
  induction evs generalizing st with
  | nil => exact h
  | cons inp rest ih => exact ih _ (WF_step st inp h)

/-! ## Claims -/

/-- C2: a `join-room` on a private room whose `access_code` differs from the
supplied code leaves the whole server state as it was (no presence entry, no
change of any room's `users` map nor of the connection's `currentRoom`), emits
exactly one event, an `error` to the requesting connection, and makes no store
write. -/
theorem C2_wrong_access_code_changes_nothing (st : Server) (sid roomId : Nat) (sock : Socket)
    (code : JsCode) (r : RoomRecord) (profile : Option Profile)
    (hlive : findSocket st sid = some sock)
    (hpriv : r.is_private = true) (hcode : r.access_code ≠ code) :
    step st (.joinRoom sid roomId code (some r) profile) =
      ⟨st, [⟨sid, .error "Invalid access code"⟩], [.selectRoom roomId]⟩ := by
  have hid := (findSocket_some hlive).2
  have hc : (r.is_private && decide (r.access_code ≠ code)) = true := by
    simp [hpriv, hcode]
  simp only [step, hlive, onJoinRoom]
  rw [if_pos hc]
  simp [socketEmit, hid]

theorem C2_witness :
    findSocket (run init threeInRoom) 11 = some ⟨11, 2, "b@x", some 1, [1]⟩ ∧
    roomThree.is_private = true ∧ roomThree.access_code ≠ JsCode.str "guess" ∧
    step (run init threeInRoom) (.joinRoom 11 3 (.str "guess") (some roomThree) none) =
      ⟨run init threeInRoom, [⟨11, .error "Invalid access code"⟩], [.selectRoom 3]⟩ :=
  ⟨by decide, by decide, by decide,
    C2_wrong_access_code_changes_nothing _ 11 3 _ _ roomThree none
      (show findSocket (run init threeInRoom) 11 = some ⟨11, 2, "b@x", some 1, [1]⟩ by decide)
      (by decide) (by decide)⟩

/-- C3 as stated fails: with connections 10, 11 and 12 in room 1, a
`webrtc-signal` from 10 whose `targetSocketId` is the room name 1 reaches
connection 11, whose id is not the target. -/
theorem C3_counterexample :
    ¬ (∀ (evs : List Input) (sid : Nat) (signal : String) (t : Nat) (e : Emit),
        e ∈ (step (run init evs) (.webrtcSignal sid signal t)).emits → e.dest = t) := by
  intro h
  have h1 := h threeInRoom 10 "offer" 1 ⟨11, .webrtcSignal "offer" 10⟩ (by decide)
  exact absurd h1 (by decide)

/-- C3 amended: when `targetSocketId` is not the name of a room that some live
connection has joined, every delivery of the relayed `webrtc-signal` goes to the
connection whose id is `targetSocketId`, never to the sender, and carries the
signal with the sender's id; and a live target other than the sender does
receive it. -/
theorem C3_relay_reaches_only_target (st : Server) (sid : Nat) (sock : Socket)
    (signal : String) (t : Nat)
    (hlive : findSocket st sid = some sock)
    (hname : ∀ s ∈ st.sockets, t ∉ s.joined) :
    (∀ e ∈ (step st (.webrtcSignal sid signal t)).emits,
        e.dest = t ∧ e.dest ≠ sid ∧ e.event = .webrtcSignal signal sid) ∧
    (∀ target, findSocket st t = some target → t ≠ sid →
        ⟨t, .webrtcSignal signal sid⟩ ∈ (step st (.webrtcSignal sid signal t)).emits) := by
  have hid := (findSocket_some hlive).2
  simp only [step, hlive, onWebrtcSignal, socketTo, hid]
  refine ⟨?_, ?_⟩
  · intro e he
    obtain ⟨s, hs, rfl⟩ := List.mem_map.mp he
    obtain ⟨hs1, hs2⟩ := List.mem_filter.mp hs
    simp only [inRoom, Bool.and_eq_true, Bool.or_eq_true, decide_eq_true_eq] at hs2
    obtain ⟨hne, hin⟩ := hs2
    rcases hin with hin | hin
    · exact ⟨hin.symm, hne, rfl⟩
    · exact absurd hin (hname s hs1)
  · intro target ht hts
    obtain ⟨hm, htid⟩ := findSocket_some ht
    refine List.mem_map.mpr ⟨target, List.mem_filter.mpr ⟨hm, ?_⟩, by rw [htid]⟩
    simp only [inRoom, Bool.and_eq_true, Bool.or_eq_true, decide_eq_true_eq]
    exact ⟨by rw [htid]; exact hts, Or.inl htid.symm⟩

theorem C3_witness :
    findSocket (run init threeInRoom) 10 = some ⟨10, 1, "a@x", some 1, [1]⟩ ∧
    (∀ s ∈ (run init threeInRoom).sockets, 11 ∉ s.joined) ∧
    (step (run init threeInRoom) (.webrtcSignal 10 "offer" 11)).emits =
      [⟨11, .webrtcSignal "offer" 10⟩] ∧
    (∀ e ∈ (step (run init threeInRoom) (.webrtcSignal 10 "offer" 11)).emits,
        e.dest = 11 ∧ e.dest ≠ 10 ∧ e.event = .webrtcSignal "offer" 10) :=
  ⟨by decide, by decide, by decide,
    (C3_relay_reaches_only_target (run init threeInRoom) 10 ⟨10, 1, "a@x", some 1, [1]⟩
      "offer" 11 (by decide) (by decide)).1⟩

/-- C4: a `pin-message` from a connection in a room whose record is owned by
another user makes no `pinned_messages` insert, emits no `message-pinned`
event, and emits exactly one event, an `error` to the sender; the state is
unchanged. -/
theorem C4_non_owner_pin_rejected (st : Server) (sid messageId R : Nat) (sock : Socket)
    (rec : RoomRecord) (pin : Option StoredPin)
    (hlive : findSocket st sid = some sock)
    (hroom : sock.currentRoom = some R)
    (howner : rec.created_by ≠ sock.userId) :
    step st (.pinMessage sid messageId (some rec) pin) =
      ⟨st, [⟨sid, .error "Only room owner can pin messages"⟩], [.selectRoomOwner R]⟩ := by
  have hid := (findSocket_some hlive).2
  simp only [step, hlive, onPinMessage, hroom]
  rw [if_pos howner]
  simp [socketEmit, hid]

theorem C4_witness :
    findSocket (run init threeInRoom) 11 = some ⟨11, 2, "b@x", some 1, [1]⟩ ∧
    roomOne.created_by ≠ 2 ∧
    step (run init threeInRoom) (.pinMessage 11 77 (some roomOne) (some ⟨5⟩)) =
      ⟨run init threeInRoom, [⟨11, .error "Only room owner can pin messages"⟩],
        [.selectRoomOwner 1]⟩ :=
  ⟨by decide, by decide,
    C4_non_owner_pin_rejected (run init threeInRoom) 11 77 1 ⟨11, 2, "b@x", some 1, [1]⟩
      roomOne (some ⟨5⟩) (by decide) rfl (by decide)⟩

/-! ## Lemmas on deliveries -/

theorem deliveredTo_none (l : List Socket) (p : Socket → Bool) (ev : Event) (x : Nat)
    (h : ∀ s ∈ l, p s = true → s.id ≠ x) :
    deliveredTo ((l.filter p).map (fun s => (⟨s.id, ev⟩ : Emit))) x = [] := by
  unfold deliveredTo
  rw [List.filter_eq_nil_iff]
  intro e he
  obtain ⟨s, hs, rfl⟩ := List.mem_map.mp he
  obtain ⟨hs1, hs2⟩ := List.mem_filter.mp hs
  simpa using h s hs1 hs2

theorem deliveredTo_unique (l : List Socket) (p : Socket → Bool) (ev : Event) (s : Socket)
    (hnd : (l.map (·.id)).Nodup) (hs : s ∈ l) (hp : p s = true) :
    deliveredTo ((l.filter p).map (fun x => (⟨x.id, ev⟩ : Emit))) s.id = [⟨s.id, ev⟩] := by
  induction l with
  | nil => simp at hs
  | cons a t ih =>
    simp only [List.map_cons, List.nodup_cons] at hnd
    obtain ⟨hat, hndt⟩ := hnd
    rcases List.mem_cons.mp hs with rfl | hst
    · have hrest := deliveredTo_none t p ev s.id (by
        intro x hx _ hxe
        exact hat (hxe ▸ List.mem_map_of_mem (·.id) hx))
      simp only [deliveredTo] at hrest ⊢
      simp [List.filter_cons, hp, hrest]
    · have hne : a.id ≠ s.id := by
        intro e
        exact hat (e ▸ List.mem_map_of_mem (·.id) hst)
      have := ih hndt hst
      simp only [deliveredTo] at this ⊢
      by_cases hpa : p a = true
      · simp [List.filter_cons, hpa, hne, this]
      · simp [List.filter_cons, hpa, this]

theorem mem_ioTo (st : Server) (k : Nat) (ev : Event) (e : Emit) :
    e ∈ ioTo st k ev ↔ ∃ s ∈ st.sockets, inRoom s k = true ∧ e = ⟨s.id, ev⟩ := by
  simp only [ioTo, List.mem_map, List.mem_filter]
  constructor
  · rintro ⟨s, ⟨h1, h2⟩, rfl⟩
    exact ⟨s, h1, h2, rfl⟩
  · rintro ⟨s, h1, h2, rfl⟩
    exact ⟨s, ⟨h1, h2⟩, rfl⟩

theorem mem_socketTo (st : Server) (sender k : Nat) (ev : Event) (e : Emit) :
    e ∈ socketTo st sender k ev ↔
      ∃ s ∈ st.sockets, s.id ≠ sender ∧ inRoom s k = true ∧ e = ⟨s.id, ev⟩ := by
  simp only [socketTo, List.mem_map, List.mem_filter, Bool.and_eq_true, decide_eq_true_eq]
  constructor
  · rintro ⟨s, ⟨h1, h2, h3⟩, rfl⟩
    exact ⟨s, h1, h2, h3, rfl⟩
  · rintro ⟨s, h1, h2, h3, rfl⟩
    exact ⟨s, ⟨h1, h2, h3⟩, rfl⟩

theorem inRoom_of_currentRoom {st : Server} (h : WF st) {s : Socket} (hs : s ∈ st.sockets)
    {R : Nat} (hR : s.currentRoom = some R) : inRoom s R = true := by
  simp only [inRoom, Bool.or_eq_true, decide_eq_true_eq]
  exact Or.inr (h.2 s hs R hR)

/-! ## Claims on pinning -/

/-- C5: for a `pin-message` sent by the room's owner while in room `R`, a
`message-pinned` event is emitted if and only if the `pinned_messages` insert
returns a stored pin; in that case every delivery is `message-pinned {id,
messageId}`, every connection in `R` (the sender included) receives exactly
one; when the insert returns nothing the only event is an `error` to the
sender. -/
theorem C5_owner_pin_broadcast_iff_stored (evs : List Input) (sid messageId R : Nat)
    (sock : Socket) (rec : RoomRecord) (pin : Option StoredPin)
    (hlive : findSocket (run init evs) sid = some sock)
    (hroom : sock.currentRoom = some R)
    (howner : rec.created_by = sock.userId) :
    ((∃ e ∈ (step (run init evs) (.pinMessage sid messageId (some rec) pin)).emits,
        e.event.isMessagePinned = true) ↔ pin.isSome = true) ∧
    (∀ p, pin = some p →
      (∀ e ∈ (step (run init evs) (.pinMessage sid messageId (some rec) pin)).emits,
        e.event = .messagePinned p.id messageId) ∧
      (∀ s ∈ (run init evs).sockets, (s.currentRoom = some R ∨ inRoom s R = true) →
        deliveredTo (step (run init evs) (.pinMessage sid messageId (some rec) pin)).emits s.id
          = [⟨s.id, .messagePinned p.id messageId⟩]) ∧
      deliveredTo (step (run init evs) (.pinMessage sid messageId (some rec) pin)).emits sid
          = [⟨sid, .messagePinned p.id messageId⟩]) ∧
    (pin = none →
      step (run init evs) (.pinMessage sid messageId (some rec) pin) =
        ⟨run init evs, [⟨sid, .error "Failed to pin message"⟩],
          [.selectRoomOwner R, .insertPinned messageId R sock.userId]⟩) := by
  have hwf := WF_run evs init WF_init
  obtain ⟨hmem, hid⟩ := findSocket_some hlive
  have hin : inRoom sock R = true := inRoom_of_currentRoom hwf hmem hroom
  cases pin with
  | none =>
    have hout : step (run init evs) (.pinMessage sid messageId (some rec) none) =
        ⟨run init evs, [⟨sid, .error "Failed to pin message"⟩],
          [.selectRoomOwner R, .insertPinned messageId R sock.userId]⟩ := by
      simp only [step, hlive, onPinMessage, hroom]
      rw [if_neg (not_not.mpr howner)]
      simp [socketEmit, hid]
    refine ⟨?_, ?_, fun _ => hout⟩
    · rw [hout]
      simp [Event.isMessagePinned]
    · intro p hp
      cases hp
  | some p =>
    have hout : (step (run init evs) (.pinMessage sid messageId (some rec) (some p))).emits =
        ioTo (run init evs) R (.messagePinned p.id messageId) := by
      simp only [step, hlive, onPinMessage, hroom]
      rw [if_neg (not_not.mpr howner)]
    have hdel : ∀ s ∈ (run init evs).sockets, (s.currentRoom = some R ∨ inRoom s R = true) →
        deliveredTo (ioTo (run init evs) R (.messagePinned p.id messageId)) s.id
          = [⟨s.id, .messagePinned p.id messageId⟩] := by
      intro s hs hR
      have hsR : inRoom s R = true := by
        rcases hR with hR | hR
        · exact inRoom_of_currentRoom hwf hs hR
        · exact hR
      exact deliveredTo_unique _ (fun x => inRoom x R) _ s hwf.1 hs hsR
    rw [hout]
    refine ⟨?_, ?_, fun h => by cases h⟩
    · simp only [Option.isSome_some, iff_true]
      exact ⟨⟨sock.id, .messagePinned p.id messageId⟩,
        (mem_ioTo _ _ _ _).mpr ⟨sock, hmem, hin, rfl⟩, rfl⟩
    · intro q hq
      cases hq
      refine ⟨?_, hdel, ?_⟩
      · intro e he
        obtain ⟨s, _, _, rfl⟩ := (mem_ioTo _ _ _ _).mp he
        rfl
      · have := hdel sock hmem (Or.inl hroom)
        rwa [hid] at this

theorem C5_witness :
    findSocket (run init threeInRoom) 10 = some ⟨10, 1, "a@x", some 1, [1]⟩ ∧
    roomOne.created_by = 1 ∧
    (step (run init threeInRoom) (.pinMessage 10 77 (some roomOne) (some ⟨5⟩))).emits =
      [⟨10, .messagePinned 5 77⟩, ⟨11, .messagePinned 5 77⟩, ⟨12, .messagePinned 5 77⟩] ∧
    ((∃ e ∈ (step (run init threeInRoom) (.pinMessage 10 77 (some roomOne) (some ⟨5⟩))).emits,
        e.event.isMessagePinned = true) ↔ (some (⟨5⟩ : StoredPin)).isSome = true) :=
  ⟨by decide, by decide, by decide,
    (C5_owner_pin_broadcast_iff_stored threeInRoom 10 77 1 ⟨10, 1, "a@x", some 1, [1]⟩
      roomOne (some ⟨5⟩) (by decide) rfl (by decide)).1⟩

/-! ## Lemmas on `join-room` -/

theorem JsMap.set_of_mem_split {α : Type} (m : JsMap α) (k : Nat) (v : α)
    (h : k ∈ JsMap.keys m) :
    ∃ pre old post, m = pre ++ (k, old) :: post ∧ k ∉ JsMap.keys pre ∧
      JsMap.set m k v = pre ++ (k, v) :: post := by
  induction m with
  | nil => simp [JsMap.keys] at h
  | cons p t ih =>
    obtain ⟨k0, v0⟩ := p
    by_cases h0 : k0 = k
    · subst h0
      exact ⟨[], v0, t, rfl, by simp [JsMap.keys], by simp [JsMap.set]⟩
    · have h1 : ¬ k = k0 := fun e => h0 e.symm
      have ht : k ∈ JsMap.keys t := by simpa [JsMap.keys, h1] using h
      obtain ⟨pre, old, post, e1, e2, e3⟩ := ih ht
      refine ⟨(k0, v0) :: pre, old, post, by rw [e1]; rfl, ?_, ?_⟩
      · simp only [JsMap.keys, List.map_cons, List.mem_cons, not_or]
        exact ⟨h1, e2⟩
      · simp only [JsMap.set, h0, if_false, e3, List.cons_append]

theorem joinRooms_get_self (st : Server) (sock : Socket) (R : Nat) (profile : Option Profile) :
    (joinRooms st sock R profile).get? R =
      some { (st.activeRooms.get? R).getD freshRoom with
        users := ((st.activeRooms.get? R).getD freshRoom).users.set sock.userId
          (joinUserData sock profile) } := by
  unfold joinRooms
  simp only [JsMap.get?_set_self, Option.some.injEq]
  cases h : st.activeRooms.get? R with
  | none => simp [JsMap.has, h, JsMap.get?_set_self, joinUserData]
  | some rd => simp [JsMap.has, h, joinUserData]

theorem joinRooms_get_ne (st : Server) (sock : Socket) (R R' : Nat) (profile : Option Profile)
    (h : R' ≠ R) : (joinRooms st sock R profile).get? R' = st.activeRooms.get? R' := by
  unfold joinRooms
  simp only [JsMap.get?_set_ne _ _ _ _ h]
  split
  · rfl
  · exact JsMap.get?_set_ne _ _ _ _ h

theorem presenceEntries_join_self (st : Server) (sock : Socket) (R : Nat)
    (profile : Option Profile) (a : JsMap ConnInfo) (b : List Socket) :
    presenceEntries ⟨joinRooms st sock R profile, a, b⟩ R =
      (presenceEntries st R).set sock.userId (joinUserData sock profile) := by
  simp only [presenceEntries, joinRooms_get_self]
  cases st.activeRooms.get? R <;> rfl

theorem presenceEntries_join_ne (st : Server) (sock : Socket) (R R' : Nat)
    (profile : Option Profile) (a : JsMap ConnInfo) (b : List Socket) (h : R' ≠ R) :
    presenceEntries ⟨joinRooms st sock R profile, a, b⟩ R' = presenceEntries st R' := by
  simp only [presenceEntries, joinRooms_get_ne _ _ _ _ _ h]

theorem socketTo_joinSockets (st : Server) (sock : Socket) (R k : Nat) (ev : Event)
    (a : JsMap RoomData) (b : JsMap ConnInfo) :
    socketTo ⟨a, b, joinSockets st sock R⟩ sock.id k ev = socketTo st sock.id k ev := by
  simp only [socketTo, joinSockets]
  induction st.sockets with
  | nil => rfl
  | cons s t ih =>
    by_cases hid : s.id = sock.id
    · simpa [List.filter_cons, hid] using ih
    · by_cases hin : inRoom s k = true
      · simpa [List.filter_cons, hid, hin] using ih
      · simpa [List.filter_cons, hid, hin] using ih

theorem onJoinRoom_emits (st : Server) (sock : Socket) (R : Nat) (code : JsCode)
    (room : Option RoomRecord) (profile : Option Profile) (h : admitted room code = true) :
    (onJoinRoom st sock R code room profile).emits =
      socketTo st sock.id R (.userJoined (joinUserData sock profile)) ++
        [⟨sock.id, .roomParticipants
          ((presenceEntries st R).set sock.userId (joinUserData sock profile)).values⟩] := by
  have hst := onJoinRoom_admitted st sock R code room profile h
  unfold onJoinRoom at hst ⊢
  cases room with
  | none => simp [admitted] at h
  | some r =>
    simp only [admitted, Bool.not_eq_true'] at h
    simp only [] at hst ⊢
    rw [if_neg (by rw [h]; exact Bool.false_ne_true)] at hst ⊢
    simp only [] at hst ⊢
    rw [hst, socketTo_joinSockets]
    have hv := joinRooms_get_self st sock R profile
    congr 1
    simp only [socketEmit, presenceEntries]
    cases hg : st.activeRooms.get? R with
    | none => simp [JsMap.has, hg, JsMap.get?_set_self, joinUserData, freshRoom]
    | some rd => simp [JsMap.has, hg, joinUserData]

theorem deliveredTo_append (a b : List Emit) (x : Nat) :
    deliveredTo (a ++ b) x = deliveredTo a x ++ deliveredTo b x := by
  simp [deliveredTo]

/-! ## Claims on joining and chatting -/

/-- C6: after an admitted `join-room` of room `R` by connection `sid`: the
only event `sid` receives from the handler is one `room-participants` whose
list is the presence list of `R` after the insertion and contains the
joiner's entry; the entries keep insertion order (a new user is appended, a
rejoining user keeps its position and has its entry replaced); every other
connection in `R` receives exactly one `user-joined` with the joiner's entry;
nobody outside `R` receives anything; and the first joiner of an empty room
gets a one-element list with no broadcast. -/
theorem C6_join_snapshot_and_broadcast (evs : List Input) (sid R : Nat) (sock : Socket)
    (code : JsCode) (room : Option RoomRecord) (profile : Option Profile)
    (hlive : findSocket (run init evs) sid = some sock)
    (hadm : admitted room code = true) :
    deliveredTo (step (run init evs) (.joinRoom sid R code room profile)).emits sid =
      [⟨sid, .roomParticipants
        (presenceList (step (run init evs) (.joinRoom sid R code room profile)).state R)⟩] ∧
    joinUserData sock profile ∈
      presenceList (step (run init evs) (.joinRoom sid R code room profile)).state R ∧
    presenceEntry (step (run init evs) (.joinRoom sid R code room profile)).state R sock.userId
      = some (joinUserData sock profile) ∧
    ((sock.userId ∉ presenceKeys (run init evs) R ∧
        presenceEntries (step (run init evs) (.joinRoom sid R code room profile)).state R =
          presenceEntries (run init evs) R ++ [(sock.userId, joinUserData sock profile)]) ∨
      (∃ pre old post,
        presenceEntries (run init evs) R = pre ++ (sock.userId, old) :: post ∧
        sock.userId ∉ JsMap.keys pre ∧
        presenceEntries (step (run init evs) (.joinRoom sid R code room profile)).state R =
          pre ++ (sock.userId, joinUserData sock profile) :: post)) ∧
    (∀ s ∈ (run init evs).sockets, s.id ≠ sid →
      (s.currentRoom = some R ∨ inRoom s R = true) →
      deliveredTo (step (run init evs) (.joinRoom sid R code room profile)).emits s.id =
        [⟨s.id, .userJoined (joinUserData sock profile)⟩]) ∧
    (∀ e ∈ (step (run init evs) (.joinRoom sid R code room profile)).emits, e.dest ≠ sid →
      e.event = .userJoined (joinUserData sock profile) ∧
        ∃ s ∈ (run init evs).sockets, s.id = e.dest ∧ inRoom s R = true) ∧
    (presenceEntries (run init evs) R = [] →
      (∀ s ∈ (run init evs).sockets, s.id ≠ sid → inRoom s R = false) →
      (step (run init evs) (.joinRoom sid R code room profile)).emits =
        [⟨sid, .roomParticipants [joinUserData sock profile]⟩]) := by
  have hwf := WF_run evs init WF_init
  obtain ⟨hmem, hid⟩ := findSocket_some hlive
  have hemits : (step (run init evs) (.joinRoom sid R code room profile)).emits =
      socketTo (run init evs) sid R (.userJoined (joinUserData sock profile)) ++
        [⟨sid, .roomParticipants
          ((presenceEntries (run init evs) R).set sock.userId
            (joinUserData sock profile)).values⟩] := by
    simp only [step, hlive]
    rw [onJoinRoom_emits _ _ _ _ _ _ hadm, hid]
  have hstate : presenceEntries (step (run init evs) (.joinRoom sid R code room profile)).state R
      = (presenceEntries (run init evs) R).set sock.userId (joinUserData sock profile) := by
    simp only [step, hlive]
    rw [onJoinRoom_admitted _ _ _ _ _ _ hadm]
    exact presenceEntries_join_self _ _ _ _ _ _
  have hnone : deliveredTo
      (socketTo (run init evs) sid R (.userJoined (joinUserData sock profile))) sid = [] := by
    unfold socketTo
    apply deliveredTo_none
    intro s _ hp
    simp only [Bool.and_eq_true, decide_eq_true_eq] at hp
    exact hp.1
  rw [hemits]
  simp only [presenceList, presenceEntry, presenceKeys, hstate]
  refine ⟨?_, ?_, ?_, ?_, ?_, ?_, ?_⟩
  · rw [deliveredTo_append, hnone]
    simp [deliveredTo]
  · have hk : sock.userId ∈ JsMap.keys
        ((presenceEntries (run init evs) R).set sock.userId (joinUserData sock profile)) :=
      (JsMap.mem_keys_set _ _ _ _).mpr (Or.inl rfl)
    by_cases hin : sock.userId ∈ JsMap.keys (presenceEntries (run init evs) R)
    · obtain ⟨pre, old, post, _, _, e3⟩ :=
        JsMap.set_of_mem_split _ _ (joinUserData sock profile) hin
      rw [e3]
      simp [JsMap.values]
    · rw [JsMap.set_of_not_mem _ _ _ hin]
      simp [JsMap.values]
  · exact JsMap.get?_set_self _ _ _
  · by_cases hin : sock.userId ∈ JsMap.keys (presenceEntries (run init evs) R)
    · exact Or.inr (JsMap.set_of_mem_split _ _ _ hin)
    · exact Or.inl ⟨hin, JsMap.set_of_not_mem _ _ _ hin⟩
  · intro s hs hne hR
    have hsR : inRoom s R = true := by
      rcases hR with hR | hR
      · exact inRoom_of_currentRoom hwf hs hR
      · exact hR
    rw [deliveredTo_append]
    have h1 := deliveredTo_unique (run init evs).sockets
      (fun x => decide (x.id ≠ sid) && inRoom x R)
      (.userJoined (joinUserData sock profile)) s hwf.1 hs (by simp [hne, hsR])
    have h2 : deliveredTo [(⟨sid, .roomParticipants
          ((presenceEntries (run init evs) R).set sock.userId
            (joinUserData sock profile)).values⟩ : Emit)] s.id = [] := by
      simp [deliveredTo, Ne.symm hne]
    rw [h2]
    simpa [socketTo] using h1
  · intro e he hne
    rcases List.mem_append.mp he with he | he
    · obtain ⟨s, hs, _, hsR, rfl⟩ := (mem_socketTo _ _ _ _ _).mp he
      exact ⟨rfl, s, hs, rfl, hsR⟩
    · simp only [List.mem_singleton] at he
      subst he
      exact absurd rfl hne
  · intro hempty hnobody
    have hto : socketTo (run init evs) sid R (.userJoined (joinUserData sock profile)) = [] := by
      simp only [socketTo, List.map_eq_nil_iff, List.filter_eq_nil_iff, Bool.and_eq_true,
        decide_eq_true_eq, not_and]
      intro s hs hne
      rw [hnobody s hs hne]
      exact Bool.false_ne_true
    rw [hto, hempty]
    rfl

theorem C6_witness :
    findSocket (run init oneInRoom) 11 = some ⟨11, 2, "b@x", none, []⟩ ∧
    admitted (some roomOne) JsCode.null = true ∧
    (step (run init oneInRoom) (.joinRoom 11 1 .null (some roomOne) none)).emits =
      [⟨10, .userJoined ⟨11, 2, "Unknown", "👤"⟩⟩,
       ⟨11, .roomParticipants [⟨10, 1, "Unknown", "👤"⟩, ⟨11, 2, "Unknown", "👤"⟩]⟩] ∧
    deliveredTo (step (run init oneInRoom) (.joinRoom 11 1 .null (some roomOne) none)).emits 11 =
      [⟨11, .roomParticipants
        (presenceList (step (run init oneInRoom)
          (.joinRoom 11 1 .null (some roomOne) none)).state 1)⟩] :=
  ⟨by decide, by decide, by decide,
    (C6_join_snapshot_and_broadcast oneInRoom 11 1 ⟨11, 2, "b@x", none, []⟩ .null
      (some roomOne) none (by decide) (by decide)).1⟩

/-- C7: a `send-message` with non-blank content from a connection whose
current room is `R`, when the `room_messages` insert returns a row: the insert
is called once with `R`, the sender's user id and the trimmed content; every
delivery is a `new-message` whose content is the trimmed text and whose
`user.id` is the sender's identity; every connection in `R`, the sender
included, receives exactly one. -/
theorem C7_message_persisted_and_delivered (evs : List Input) (sid R : Nat) (sock : Socket)
    (c : String) (m : StoredMessage) (profile : Option Profile)
    (hlive : findSocket (run init evs) sid = some sock)
    (hroom : sock.currentRoom = some R)
    (hc : jsTrim c ≠ "") :
    (step (run init evs) (.sendMessage sid (.text c) (some m) profile)).db =
      [.insertRoomMessage R sock.userId (jsTrim c), .selectProfile sock.userId] ∧
    (sendMessageData sock c m profile).content = jsTrim c ∧
    (sendMessageData sock c m profile).user.id = sock.userId ∧
    (∀ e ∈ (step (run init evs) (.sendMessage sid (.text c) (some m) profile)).emits,
      e.event = .newMessage (sendMessageData sock c m profile)) ∧
    (∀ s ∈ (run init evs).sockets, (s.currentRoom = some R ∨ inRoom s R = true) →
      deliveredTo (step (run init evs) (.sendMessage sid (.text c) (some m) profile)).emits s.id
        = [⟨s.id, .newMessage (sendMessageData sock c m profile)⟩]) ∧
    deliveredTo (step (run init evs) (.sendMessage sid (.text c) (some m) profile)).emits sid
      = [⟨sid, .newMessage (sendMessageData sock c m profile)⟩] := by
  have hwf := WF_run evs init WF_init
  obtain ⟨hmem, hid⟩ := findSocket_some hlive
  have hout : step (run init evs) (.sendMessage sid (.text c) (some m) profile) =
      ⟨run init evs, ioTo (run init evs) R (.newMessage (sendMessageData sock c m profile)),
        [.insertRoomMessage R sock.userId (jsTrim c), .selectProfile sock.userId]⟩ := by
    simp only [step, hlive, onSendMessage, hroom]
    rw [if_neg hc]
    rfl
  have hdel : ∀ s ∈ (run init evs).sockets, (s.currentRoom = some R ∨ inRoom s R = true) →
      deliveredTo (ioTo (run init evs) R (.newMessage (sendMessageData sock c m profile))) s.id
        = [⟨s.id, .newMessage (sendMessageData sock c m profile)⟩] := by
    intro s hs hR
    have hsR : inRoom s R = true := by
      rcases hR with hR | hR
      · exact inRoom_of_currentRoom hwf hs hR
      · exact hR
    exact deliveredTo_unique _ (fun x => inRoom x R) _ s hwf.1 hs hsR
  rw [hout]
  refine ⟨rfl, rfl, rfl, ?_, hdel, ?_⟩
  · intro e he
    obtain ⟨s, _, _, rfl⟩ := (mem_ioTo _ _ _ _).mp he
    rfl
  · have := hdel sock hmem (Or.inl hroom)
    rwa [hid] at this

theorem C7_witness :
    findSocket (run init threeInRoom) 11 = some ⟨11, 2, "b@x", some 1, [1]⟩ ∧
    jsTrim "  hello " ≠ "" ∧
    step (run init threeInRoom) (.sendMessage 11 (.text "  hello ") (some ⟨42, 7⟩) none) =
      ⟨run init threeInRoom,
        [⟨10, .newMessage ⟨42, "hello", ⟨2, "Unknown", "👤"⟩, 7⟩⟩,
         ⟨11, .newMessage ⟨42, "hello", ⟨2, "Unknown", "👤"⟩, 7⟩⟩,
         ⟨12, .newMessage ⟨42, "hello", ⟨2, "Unknown", "👤"⟩, 7⟩⟩],
        [.insertRoomMessage 1 2 "hello", .selectProfile 2]⟩ ∧
    (step (run init threeInRoom) (.sendMessage 11 (.text "  hello ") (some ⟨42, 7⟩) none)).db =
      [.insertRoomMessage 1 2 (jsTrim "  hello "), .selectProfile 2] :=
  ⟨by decide, by decide, by decide,
    (C7_message_persisted_and_delivered threeInRoom 11 1 ⟨11, 2, "b@x", some 1, [1]⟩
      "  hello " ⟨42, 7⟩ none (by decide) rfl (by decide)).1⟩

/-! ## Lemmas on `disconnecting` -/

theorem onDisconnecting_rooms (st : Server) (sock : Socket) :
    (onDisconnecting st sock).state.activeRooms = leaveRooms st sock := by
  unfold onDisconnecting leaveRooms
  cases sock.currentRoom with
  | none => rfl
  | some r =>
    simp only
    cases st.activeRooms.get? r <;> rfl

theorem onDisconnecting_connectedUsers (st : Server) (sock : Socket) :
    (onDisconnecting st sock).state.connectedUsers = st.connectedUsers.delete sock.userId := by
  unfold onDisconnecting
  cases sock.currentRoom with
  | none => rfl
  | some r =>
    simp only
    cases st.activeRooms.get? r <;> rfl

theorem onDisconnecting_emits (st : Server) (sock : Socket) (R : Nat) (rd : RoomData)
    (hroom : sock.currentRoom = some R) (hrd : st.activeRooms.get? R = some rd) :
    (onDisconnecting st sock).emits =
      socketTo st sock.id R (.userLeft (rd.users.get? sock.userId)) := by
  unfold onDisconnecting
  simp only [hroom, hrd]

theorem leaveRooms_get_of_ne (st : Server) (sock : Socket) (R : Nat)
    (h : sock.currentRoom ≠ some R) : (leaveRooms st sock).get? R = st.activeRooms.get? R := by
  unfold leaveRooms
  cases hc : sock.currentRoom with
  | none => rfl
  | some r =>
    have hne : R ≠ r := by
      intro e
      exact h (by rw [hc, e])
    simp only
    cases hg : st.activeRooms.get? r with
    | none => rfl
    | some rd =>
      simp only
      split
      · exact JsMap.get?_delete_ne _ _ _ hne
      · exact JsMap.get?_set_ne _ _ _ _ hne

theorem leaveRooms_get_self (st : Server) (sock : Socket) (R : Nat) (rd : RoomData)
    (hroom : sock.currentRoom = some R) (hrd : st.activeRooms.get? R = some rd) :
    (leaveRooms st sock).get? R =
      if rd.users.delete sock.userId = [] then none
      else some { rd with users := rd.users.delete sock.userId } := by
  unfold leaveRooms
  simp only [hroom, hrd, JsMap.size, List.length_eq_zero]
  split
  · exact JsMap.get?_delete_self _ _
  · exact JsMap.get?_set_self _ _ _

theorem presenceEntries_leave_self (st : Server) (sock : Socket) (R : Nat)
    (a : JsMap ConnInfo) (b : List Socket) (hroom : sock.currentRoom = some R) :
    presenceEntries ⟨leaveRooms st sock, a, b⟩ R =
      (presenceEntries st R).delete sock.userId := by
  simp only [presenceEntries]
  cases hrd : st.activeRooms.get? R with
  | none =>
    have : (leaveRooms st sock).get? R = none := by
      unfold leaveRooms
      simp only [hroom, hrd]
    simp [this, JsMap.delete]
  | some rd =>
    rw [leaveRooms_get_self st sock R rd hroom hrd]
    by_cases he : rd.users.delete sock.userId = []
    · simp [he]
    · simp [he]

theorem presenceEntries_leave_other (st : Server) (sock : Socket) (R : Nat)
    (a : JsMap ConnInfo) (b : List Socket) (hroom : sock.currentRoom ≠ some R) :
    presenceEntries ⟨leaveRooms st sock, a, b⟩ R = presenceEntries st R := by
  simp only [presenceEntries, leaveRooms_get_of_ne st sock R hroom]

theorem presenceEntries_congr (s1 s2 : Server) (R : Nat) (h : s1.activeRooms = s2.activeRooms) :
    presenceEntries s1 R = presenceEntries s2 R := by
  simp only [presenceEntries, h]

/-! ## Claims on leaving -/

/-- C8: when a connection of user `A` whose current room is `R` disconnects
and `R` holds an entry for `A`: the entry is removed from `R` (the other
entries stay, in order); every other connection in `R` receives exactly one
`user-left` carrying the removed entry; the disconnecting connection receives
nothing; the registry entry of `A` is removed; and `R` loses its `RoomState`
exactly when its `users` map has become empty. -/
theorem C8_disconnect_removes_presence (evs : List Input) (sid R : Nat) (sock : Socket)
    (entry : UserData)
    (hlive : findSocket (run init evs) sid = some sock)
    (hroom : sock.currentRoom = some R)
    (hentry : presenceEntry (run init evs) R sock.userId = some entry) :
    presenceEntries (step (run init evs) (.disconnecting sid)).state R =
      (presenceEntries (run init evs) R).delete sock.userId ∧
    presenceEntry (step (run init evs) (.disconnecting sid)).state R sock.userId = none ∧
    (∀ s ∈ (run init evs).sockets, s.id ≠ sid →
      (s.currentRoom = some R ∨ inRoom s R = true) →
      deliveredTo (step (run init evs) (.disconnecting sid)).emits s.id =
        [⟨s.id, .userLeft (some entry)⟩]) ∧
    deliveredTo (step (run init evs) (.disconnecting sid)).emits sid = [] ∧
    (step (run init evs) (.disconnecting sid)).state.connectedUsers.get? sock.userId = none ∧
    ((step (run init evs) (.disconnecting sid)).state.activeRooms.has R = false ↔
      (presenceEntries (run init evs) R).delete sock.userId = []) := by
  have hwf := WF_run evs init WF_init
  obtain ⟨hmem, hid⟩ := findSocket_some hlive
  obtain ⟨rd, hrd, hget⟩ : ∃ rd, (run init evs).activeRooms.get? R = some rd ∧
      rd.users.get? sock.userId = some entry := by
    simp only [presenceEntry, presenceEntries] at hentry
    cases hg : (run init evs).activeRooms.get? R with
    | none => simp [hg, JsMap.get?] at hentry
    | some rd => exact ⟨rd, rfl, by simpa [hg] using hentry⟩
  have hpe : presenceEntries (run init evs) R = rd.users := by
    simp [presenceEntries, hrd]
  have hemits : (step (run init evs) (.disconnecting sid)).emits =
      socketTo (run init evs) sid R (.userLeft (some entry)) := by
    simp only [step, hlive]
    rw [onDisconnecting_emits _ _ R rd hroom hrd, hget, hid]
  have hrooms : (step (run init evs) (.disconnecting sid)).state.activeRooms =
      leaveRooms (run init evs) sock := by
    simp only [step, hlive]
    exact onDisconnecting_rooms _ _
  have hstate : presenceEntries (step (run init evs) (.disconnecting sid)).state R =
      (presenceEntries (run init evs) R).delete sock.userId := by
    rw [presenceEntries_congr _ ⟨leaveRooms (run init evs) sock, [], []⟩ R hrooms]
    exact presenceEntries_leave_self _ _ _ _ _ hroom
  refine ⟨hstate, ?_, ?_, ?_, ?_, ?_⟩
  · simp only [presenceEntry, hstate]
    exact JsMap.get?_delete_self _ _
  · intro s hs hne hR
    have hsR : inRoom s R = true := by
      rcases hR with hR | hR
      · exact inRoom_of_currentRoom hwf hs hR
      · exact hR
    rw [hemits]
    have h1 := deliveredTo_unique (run init evs).sockets
      (fun x => decide (x.id ≠ sid) && inRoom x R)
      (.userLeft (some entry)) s hwf.1 hs (by simp [hne, hsR])
    simpa [socketTo] using h1
  · rw [hemits]
    unfold socketTo
    apply deliveredTo_none
    intro s _ hp
    simp only [Bool.and_eq_true, decide_eq_true_eq] at hp
    exact hp.1
  · simp only [step, hlive]
    rw [onDisconnecting_connectedUsers]
    exact JsMap.get?_delete_self _ _
  · rw [hrooms, hpe]
    simp only [JsMap.has, leaveRooms_get_self _ _ R rd hroom hrd]
    by_cases he : rd.users.delete sock.userId = []
    · simp [he]
    · simp [he]

theorem C8_witness :
    findSocket (run init threeInRoom) 10 = some ⟨10, 1, "a@x", some 1, [1]⟩ ∧
    presenceEntry (run init threeInRoom) 1 1 = some ⟨10, 1, "Unknown", "👤"⟩ ∧
    (step (run init threeInRoom) (.disconnecting 10)).emits =
      [⟨11, .userLeft (some ⟨10, 1, "Unknown", "👤"⟩)⟩,
       ⟨12, .userLeft (some ⟨10, 1, "Unknown", "👤"⟩)⟩] ∧
    presenceEntries (step (run init threeInRoom) (.disconnecting 10)).state 1 =
      (presenceEntries (run init threeInRoom) 1).delete 1 :=
  ⟨by decide, by decide, by decide,
    (C8_disconnect_removes_presence threeInRoom 10 1 ⟨10, 1, "a@x", some 1, [1]⟩
      ⟨10, 1, "Unknown", "👤"⟩ (by decide) rfl (by decide)).1⟩

/-- C9 fails on the code: user 1 has two connections (10 and 11) in room 1
beside user 2 (connection 12). After connection 10 has left, user 1 has no
presence entry; the leave handling of connection 11 for the same user and
room still emits `user-left`, with an `undefined` payload, to connection
12. -/
theorem C9_second_leave_emits_user_left :
    presenceEntry (run init twoTabsOneClosed) 1 1 = none ∧
    findSocket (run init twoTabsOneClosed) 11 = some ⟨11, 1, "a@x", some 1, [1]⟩ ∧
    (step (run init twoTabsOneClosed) (.disconnecting 11)).emits = [⟨12, .userLeft none⟩] ∧
    (step (run init twoTabsOneClosed) (.disconnecting 11)).state.activeRooms =
      (run init twoTabsOneClosed).activeRooms := by
  decide

/-- C10: (1) when a `disconnecting` removes the last presence entry of room
`R`, `activeRooms` has no entry for `R` afterwards; (2) while no join of `R`
is admitted, no event brings an entry for `R` back; (3) an admitted join of
`R` in a state without an entry for `R` creates a `RoomState` whose `users`
map holds only the joiner and whose `messages` and `pinnedMessages` are empty,
whatever the rest of the state holds. -/
theorem C10_teardown_then_fresh_room (st : Server) (sid R : Nat) (sock : Socket)
    (hlive : findSocket st sid = some sock) :
    (sock.currentRoom = some R → (∃ rd, st.activeRooms.get? R = some rd) →
      (presenceEntries st R).delete sock.userId = [] →
      (step st (.disconnecting sid)).state.activeRooms.get? R = none) ∧
    (∀ inp, st.activeRooms.get? R = none → isAdmittedJoinOf st R inp = false →
      (step st inp).state.activeRooms.get? R = none) ∧
    (∀ code room profile, st.activeRooms.get? R = none → admitted room code = true →
      (step st (.joinRoom sid R code room profile)).state.activeRooms.get? R =
        some ⟨[(sock.userId, joinUserData sock profile)], [], []⟩) := by
  refine ⟨?_, ?_, ?_⟩
  · rintro hroom ⟨rd, hrd⟩ hempty
    simp only [step, hlive]
    rw [onDisconnecting_rooms, leaveRooms_get_self _ _ R rd hroom hrd]
    have : rd.users.delete sock.userId = [] := by
      simpa [presenceEntries, hrd] using hempty
    simp [this]
  · intro inp hnone hnot
    cases inp with
    | connection s u e =>
      simp only [step, onConnection]
      split <;> exact hnone
    | joinRoom s roomId code room profile =>
      simp only [step]
      cases hf : findSocket st s with
      | none => exact hnone
      | some sk =>
        simp only
        cases ha : admitted room code with
        | false => rw [onJoinRoom_rejected _ _ _ _ _ _ ha]; exact hnone
        | true =>
          rw [onJoinRoom_admitted _ _ _ _ _ _ ha]
          have hne : R ≠ roomId := by
            intro e
            simp [isAdmittedJoinOf, ha, hf, e] at hnot
          simp only
          rw [joinRooms_get_ne _ _ _ _ _ hne]
          exact hnone
    | sendMessage s content message profile =>
      simp only [step]
      cases hf : findSocket st s with
      | none => exact hnone
      | some sk => simp only [onSendMessage_state]; exact hnone
    | pinMessage s messageId room pin =>
      simp only [step]
      cases hf : findSocket st s with
      | none => exact hnone
      | some sk => simp only [onPinMessage_state]; exact hnone
    | webrtcSignal s signal target =>
      simp only [step]
      cases hf : findSocket st s with
      | none => exact hnone
      | some sk => exact hnone
    | disconnecting s =>
      simp only [step]
      cases hf : findSocket st s with
      | none => exact hnone
      | some sk =>
        simp only
        rw [onDisconnecting_rooms]
        by_cases hc : sk.currentRoom = some R
        · unfold leaveRooms
          simp only [hc, hnone]
        · rw [leaveRooms_get_of_ne _ _ _ hc]
          exact hnone
  · intro code room profile hnone hadm
    simp only [step, hlive]
    rw [onJoinRoom_admitted _ _ _ _ _ _ hadm]
    simp only
    rw [joinRooms_get_self, hnone]
    rfl

theorem C10_witness :
    findSocket (run init joinThenLeave) 11 = some ⟨11, 2, "b@x", none, []⟩ ∧
    (run init joinThenLeave).activeRooms.get? 1 = none ∧
    (step (run init joinThenLeave) (.joinRoom 11 1 .null (some roomOne) none)).state.activeRooms.get? 1
      = some ⟨[(2, ⟨11, 2, "Unknown", "👤"⟩)], [], []⟩ :=
  ⟨by decide, by decide,
    (C10_teardown_then_fresh_room (run init joinThenLeave) 11 1 ⟨11, 2, "b@x", none, []⟩
      (by decide)).2.2 .null (some roomOne) none (by decide) (by decide)⟩

/-! ## The presence invariant -/

/-- C1 fails on the code: connection 10 of user 1 joins room 1, then room 2,
then disconnects. Before the disconnect user 1 is a key of both rooms; after
it no connection is live, so user 1 has left every room, and only room 2 was
cleaned: user 1 is still a key of the `users` map of room 1. -/
theorem C1_left_user_still_present :
    presenceKeys (run init switchThenClose.dropLast) 1 = [1] ∧
    presenceKeys (run init switchThenClose.dropLast) 2 = [1] ∧
    (run init switchThenClose).sockets = [] ∧
    presenceKeys (run init switchThenClose) 2 = [] ∧
    presenceKeys (run init switchThenClose) 1 = [1] := by
  decide

/-! ## Claims on failed requests -/

theorem all_of_all_dropWhile (p : Char → Bool) (l : List Char)
    (h : ∀ x ∈ l.dropWhile p, p x = true) : ∀ x ∈ l, p x = true := by
  induction l with
  | nil => intro x hx; simp at hx
  | cons a t ih =>
    by_cases hp : p a = true
    · have ht : ∀ x ∈ t.dropWhile p, p x = true := by
        intro x hx
        exact h x (by simpa [List.dropWhile_cons, hp] using hx)
      intro x hx
      rcases List.mem_cons.mp hx with rfl | hx1
      · exact hp
      · exact ih ht x hx1
    · have : p a = true := h a (by simp [List.dropWhile_cons, hp])
      exact absurd this hp

theorem jsTrim_eq_empty_iff (c : String) :
    jsTrim c = "" ↔ ∀ ch ∈ c.data, isJsWhitespace ch = true := by
  have hmk : jsTrim c = "" ↔
      ((c.data.dropWhile isJsWhitespace).reverse.dropWhile isJsWhitespace).reverse = [] := by
    unfold jsTrim
    constructor
    · intro h
      have := congrArg String.data h
      simpa using this
    · intro h
      rw [h]
  rw [hmk, List.reverse_eq_nil_iff, List.dropWhile_eq_nil_iff]
  constructor
  · intro h
    apply all_of_all_dropWhile
    intro x hx
    exact h x (List.mem_reverse.mpr hx)
  · intro h x hx
    exact h x ((List.dropWhile_sublist _).subset (List.mem_reverse.mp hx))

/-- C11 as stated fails: connection 11 is in room 1 with connections 10 and
12 and sends non-blank content; when the `room_messages` insert returns no
row, no `new-message` is delivered to anyone. -/
theorem C11_counterexample :
    ¬ (∀ (evs : List Input) (sid R : Nat) (sock : Socket) (c : String)
        (profile : Option Profile),
        findSocket (run init evs) sid = some sock → sock.currentRoom = some R →
        jsTrim c ≠ "" →
        ∃ e ∈ (step (run init evs) (.sendMessage sid (.text c) none profile)).emits,
          e.event.isNewMessage = true) := by
  intro h
  obtain ⟨e, he, hnew⟩ := h threeInRoom 11 1 ⟨11, 2, "b@x", some 1, [1]⟩ "hello" none
    (by decide) rfl (by decide)
  have hem : (step (run init threeInRoom) (.sendMessage 11 (.text "hello") none none)).emits =
      [⟨11, .error "Failed to send message"⟩] := by decide
  rw [hem] at he
  simp only [List.mem_singleton] at he
  subst he
  simp [Event.isNewMessage] at hnew

/-- C11 amended: for a `send-message` with non-blank content from a connection
in room `R`, when the `room_messages` insert returns no stored row the insert
has been attempted with the trimmed content, no `new-message` is delivered to
anyone, the only event is one `error` to the sender, and the state is
unchanged. -/
theorem C11_failed_insert_gives_error (st : Server) (sid R : Nat) (sock : Socket) (c : String)
    (profile : Option Profile)
    (hlive : findSocket st sid = some sock)
    (hroom : sock.currentRoom = some R)
    (hc : jsTrim c ≠ "") :
    step st (.sendMessage sid (.text c) none profile) =
      ⟨st, [⟨sid, .error "Failed to send message"⟩],
        [.insertRoomMessage R sock.userId (jsTrim c), .selectProfile sock.userId]⟩ := by
  have hid := (findSocket_some hlive).2
  simp only [step, hlive, onSendMessage, hroom]
  rw [if_neg hc]
  simp [socketEmit, hid]

theorem C11_witness :
    findSocket (run init threeInRoom) 11 = some ⟨11, 2, "b@x", some 1, [1]⟩ ∧
    jsTrim " hi " ≠ "" ∧
    step (run init threeInRoom) (.sendMessage 11 (.text " hi ") none none) =
      ⟨run init threeInRoom, [⟨11, .error "Failed to send message"⟩],
        [.insertRoomMessage 1 2 (jsTrim " hi "), .selectProfile 2]⟩ :=
  ⟨by decide, by decide,
    C11_failed_insert_gives_error (run init threeInRoom) 11 1 ⟨11, 2, "b@x", some 1, [1]⟩
      " hi " none (by decide) rfl (by decide)⟩

/-- C12: a `join-room` whose `roomId` has no `study_rooms` record emits
exactly one event, an `error` to the requesting connection, and leaves the
whole state (`activeRooms`, `connectedUsers`, every `currentRoom`) unchanged,
so every later event is handled as if the failed join had not happened. -/
theorem C12_missing_room_changes_nothing (st : Server) (sid roomId : Nat) (sock : Socket)
    (code : JsCode) (profile : Option Profile)
    (hlive : findSocket st sid = some sock) :
    step st (.joinRoom sid roomId code none profile) =
      ⟨st, [⟨sid, .error "Room not found"⟩], [.selectRoom roomId]⟩ ∧
    ∀ inp, step (step st (.joinRoom sid roomId code none profile)).state inp = step st inp := by
  have hid := (findSocket_some hlive).2
  have h : step st (.joinRoom sid roomId code none profile) =
      ⟨st, [⟨sid, .error "Room not found"⟩], [.selectRoom roomId]⟩ := by
    simp only [step, hlive, onJoinRoom]
    simp [socketEmit, hid]
  refine ⟨h, ?_⟩
  intro inp
  rw [h]

theorem C12_witness :
    findSocket (run init oneInRoom) 11 = some ⟨11, 2, "b@x", none, []⟩ ∧
    step (run init oneInRoom) (.joinRoom 11 9 .null none none) =
      ⟨run init oneInRoom, [⟨11, .error "Room not found"⟩], [.selectRoom 9]⟩ ∧
    (findSocket (step (step (run init oneInRoom) (.joinRoom 11 9 .null none none)).state
        (.joinRoom 11 1 .null (some roomOne) none)).state 11).map (·.currentRoom)
      = some (some 1) :=
  ⟨by decide,
    (C12_missing_room_changes_nothing (run init oneInRoom) 11 9 ⟨11, 2, "b@x", none, []⟩
      .null none (by decide)).1,
    by decide⟩

/-- C13 as stated fails: with connections 10, 11 and 12 in room 1, the value
1 is the id of no live connection, yet a `webrtc-signal` from 10 with
`targetSocketId` 1 is delivered to connections 11 and 12. -/
theorem C13_counterexample :
    ¬ (∀ (evs : List Input) (sid : Nat) (sock : Socket) (signal : String) (t : Nat),
        findSocket (run init evs) sid = some sock →
        (∀ s ∈ (run init evs).sockets, s.id ≠ t) →
        (step (run init evs) (.webrtcSignal sid signal t)).emits = []) := by
  intro h
  have h1 := h threeInRoom 10 ⟨10, 1, "a@x", some 1, [1]⟩ "offer" 1 (by decide) (by decide)
  exact absurd h1 (by decide)

/-- C13 amended: a `webrtc-signal` whose `targetSocketId` is neither the id of
a live connection nor the name of a room some live connection has joined
emits nothing to anyone, no relay and no error, and leaves the state
unchanged. -/
theorem C13_unknown_target_dropped (st : Server) (sid : Nat) (sock : Socket)
    (signal : String) (t : Nat)
    (hlive : findSocket st sid = some sock)
    (hid : ∀ s ∈ st.sockets, s.id ≠ t)
    (hname : ∀ s ∈ st.sockets, t ∉ s.joined) :
    step st (.webrtcSignal sid signal t) = ⟨st, [], []⟩ := by
  simp only [step, hlive, onWebrtcSignal, socketTo]
  have : st.sockets.filter (fun s => decide (s.id ≠ sock.id) && inRoom s t) = [] := by
    rw [List.filter_eq_nil_iff]
    intro s hs
    simp only [inRoom, Bool.and_eq_true, Bool.or_eq_true, decide_eq_true_eq, not_and, not_or]
    intro _
    exact ⟨fun e => hid s hs e.symm, hname s hs⟩
  rw [this]
  rfl

theorem C13_witness :
    findSocket (run init threeInRoom) 10 = some ⟨10, 1, "a@x", some 1, [1]⟩ ∧
    (∀ s ∈ (run init threeInRoom).sockets, s.id ≠ 99) ∧
    (∀ s ∈ (run init threeInRoom).sockets, 99 ∉ s.joined) ∧
    step (run init threeInRoom) (.webrtcSignal 10 "offer" 99) =
      ⟨run init threeInRoom, [], []⟩ :=
  ⟨by decide, by decide, by decide,
    C13_unknown_target_dropped (run init threeInRoom) 10 ⟨10, 1, "a@x", some 1, [1]⟩
      "offer" 99 (by decide) (by decide) (by decide)⟩

/-- C14 as stated fails: connection 11 is in room 1 and sends a `send-message`
whose content is a number: the content is neither missing nor blank, yet the
handler makes no `room_messages` insert (the guard's `content?.trim()` throws
and the `catch` emits an `error`). -/
theorem C14_counterexample :
    ¬ (∀ (evs : List Input) (sid : Nat) (sock : Socket) (content : Content)
        (message : Option StoredMessage) (profile : Option Profile),
        findSocket (run init evs) sid = some sock →
        ¬ (sock.currentRoom = none ∨ content = .missing ∨
            ∃ c, content = .text c ∧ ∀ ch ∈ c.data, isJsWhitespace ch = true) →
        ∃ R text, DbCall.insertRoomMessage R sock.userId text ∈
          (step (run init evs) (.sendMessage sid content message profile)).db) := by
  intro h
  obtain ⟨R, text, hmem⟩ := h threeInRoom 11 ⟨11, 2, "b@x", some 1, [1]⟩ .other
    (some ⟨42, 7⟩) none (by decide)
    (by
      rintro (h1 | h1 | ⟨c, h1, _⟩)
      · cases h1
      · cases h1
      · cases h1)
  have hdb : (step (run init threeInRoom)
      (.sendMessage 11 .other (some ⟨42, 7⟩) none)).db = [] := by decide
  rw [hdb] at hmem
  cases hmem

/-- C14 amended: a `send-message` has no effect at all (no insert, no event, no
state change) when the connection has no current room, or the content is
missing, empty or made of white space only; a `send-message` in a room whose
content is a string with a character that is not white space makes the
`room_messages` insert with the current room, the sender and the trimmed
content; and a `send-message` in a room whose content is neither missing nor
a string makes no insert, leaves the state unchanged and emits exactly one
`error` to the sender. -/
theorem C14_send_message_guard (st : Server) (sid : Nat) (sock : Socket)
    (content : Content) (message : Option StoredMessage) (profile : Option Profile)
    (hlive : findSocket st sid = some sock) :
    ((sock.currentRoom = none ∨ content = .missing ∨
        ∃ c, content = .text c ∧ ∀ ch ∈ c.data, isJsWhitespace ch = true) →
      step st (.sendMessage sid content message profile) = ⟨st, [], []⟩) ∧
    (∀ R c, sock.currentRoom = some R → content = .text c →
      (∃ ch ∈ c.data, isJsWhitespace ch = false) →
      (step st (.sendMessage sid content message profile)).db =
        [.insertRoomMessage R sock.userId (jsTrim c), .selectProfile sock.userId]) ∧
    (∀ R, sock.currentRoom = some R → content = .other →
      step st (.sendMessage sid content message profile) =
        ⟨st, [⟨sid, .error "Failed to send message"⟩], []⟩) := by
  have hid := (findSocket_some hlive).2
  refine ⟨?_, ?_, ?_⟩
  · intro h
    simp only [step, hlive, onSendMessage]
    cases hr : sock.currentRoom with
    | none => rfl
    | some r =>
      cases hcn : content with
      | missing => rfl
      | other =>
        rcases h with h | h | ⟨c2, h1, _⟩
        · rw [hr] at h; cases h
        · rw [hcn] at h; cases h
        · rw [hcn] at h1; cases h1
      | text c =>
        rcases h with h | h | ⟨c2, h1, h2⟩
        · rw [hr] at h; cases h
        · rw [hcn] at h; cases h
        · rw [hcn] at h1
          cases h1
          simp only
          rw [if_pos ((jsTrim_eq_empty_iff c).mpr h2)]
  · intro R c hr hcn ⟨ch, hch, hws⟩
    have hne : jsTrim c ≠ "" := by
      intro he
      have := (jsTrim_eq_empty_iff c).mp he ch hch
      rw [hws] at this
      cases this
    simp only [step, hlive, onSendMessage, hr, hcn]
    rw [if_neg hne]
    cases message <;> rfl
  · intro R hr hcn
    simp only [step, hlive, onSendMessage, hr, hcn, socketEmit, hid]

theorem C14_witness :
    findSocket (run init threeInRoom) 11 = some ⟨11, 2, "b@x", some 1, [1]⟩ ∧
    step (run init threeInRoom) (.sendMessage 11 (.text " \t\n ") (some ⟨42, 7⟩) none) =
      ⟨run init threeInRoom, [], []⟩ ∧
    (step (run init threeInRoom) (.sendMessage 11 (.text " a ") (some ⟨42, 7⟩) none)).db =
      [.insertRoomMessage 1 2 (jsTrim " a "), .selectProfile 2] ∧
    step (run init threeInRoom) (.sendMessage 11 .other (some ⟨42, 7⟩) none) =
      ⟨run init threeInRoom, [⟨11, .error "Failed to send message"⟩], []⟩ :=
  ⟨by decide,
    (C14_send_message_guard (run init threeInRoom) 11
      ⟨11, 2, "b@x", some 1, [1]⟩ (.text " \t\n ") (some ⟨42, 7⟩) none (by decide)).1
      (Or.inr (Or.inr ⟨" \t\n ", rfl, by decide⟩)),
    (C14_send_message_guard (run init threeInRoom) 11
      ⟨11, 2, "b@x", some 1, [1]⟩ (.text " a ") (some ⟨42, 7⟩) none (by decide)).2.1
      1 " a " rfl rfl ⟨'a', by decide, by decide⟩,
    (C14_send_message_guard (run init threeInRoom) 11
      ⟨11, 2, "b@x", some 1, [1]⟩ .other (some ⟨42, 7⟩) none (by decide)).2.2 1 rfl rfl⟩

/-- C20: every delivery of a relayed `webrtc-signal` carries exactly the
inbound `signal` value and, as `fromSocketId`, the id of the sending
connection; the set of receivers does not depend on the signal value, which
the handler never inspects. -/
theorem C20_signal_relayed_verbatim (st : Server) (sid : Nat) (sock : Socket)
    (signal : String) (t : Nat)
    (hlive : findSocket st sid = some sock) :
    (∀ e ∈ (step st (.webrtcSignal sid signal t)).emits, e.event = .webrtcSignal signal sid) ∧
    (∀ other : String,
      (step st (.webrtcSignal sid other t)).emits.map (·.dest) =
        (step st (.webrtcSignal sid signal t)).emits.map (·.dest)) := by
  have hid := (findSocket_some hlive).2
  simp only [step, hlive, onWebrtcSignal, hid]
  refine ⟨?_, ?_⟩
  · intro e he
    obtain ⟨s, _, _, _, rfl⟩ := (mem_socketTo _ _ _ _ _).mp he
    rfl
  · intro other
    simp [socketTo, List.map_map]

theorem C20_witness :
    findSocket (run init threeInRoom) 10 = some ⟨10, 1, "a@x", some 1, [1]⟩ ∧
    (step (run init threeInRoom) (.webrtcSignal 10 "\x7b\"type\":\"offer\"\x7d" 12)).emits =
      [⟨12, .webrtcSignal "\x7b\"type\":\"offer\"\x7d" 10⟩] ∧
    (∀ e ∈ (step (run init threeInRoom) (.webrtcSignal 10 "ice" 12)).emits,
      e.event = .webrtcSignal "ice" 10) :=
  ⟨by decide, by decide,
    (C20_signal_relayed_verbatim (run init threeInRoom) 10 ⟨10, 1, "a@x", some 1, [1]⟩
      "ice" 12 (by decide)).1⟩

/-! ## The admission rule -/

theorem admitted_iff (room : Option RoomRecord) (code : JsCode) :
    admitted room code = true ↔
      ∃ r, room = some r ∧ (r.is_private = false ∨ r.access_code = code) := by
  cases room with
  | none => simp [admitted]
  | some r =>
    cases hp : r.is_private <;> simp [admitted, hp]

theorem find?_join_map (l : List Socket) (sock : Socket) (R sid : Nat)
    (hid : sock.id = sid)
    (h : l.find? (fun s => decide (s.id = sid)) = some sock) :
    (l.map (fun s =>
        if s.id = sock.id then
          { s with joined := socketJoin s.joined R, currentRoom := some R }
        else s)).find? (fun s => decide (s.id = sid)) =
      some { sock with joined := socketJoin sock.joined R, currentRoom := some R } := by
  induction l with
  | nil => simp at h
  | cons s t ih =>
    by_cases hs : s.id = sid
    · have hss : s = sock := by simpa [List.find?_cons, hs] using h
      subst hss
      simp [List.find?_cons, hs]
    · have ht : List.find? (fun s => decide (s.id = sid)) t = some sock := by
        simpa [List.find?_cons, hs] using h
      have hne : ¬ s.id = sock.id := by rw [hid]; exact hs
      simpa [List.find?_cons, hs, hne] using ih ht

theorem findSocket_joinSockets (st : Server) (sock : Socket) (R sid : Nat)
    (a : JsMap RoomData) (b : JsMap ConnInfo)
    (hlive : findSocket st sid = some sock) :
    findSocket ⟨a, b, joinSockets st sock R⟩ sid =
      some { sock with joined := socketJoin sock.joined R, currentRoom := some R } :=
  find?_join_map st.sockets sock R sid (findSocket_some hlive).2 hlive

theorem onJoinRoom_rejected_emits (st : Server) (sock : Socket) (roomId : Nat) (code : JsCode)
    (room : Option RoomRecord) (profile : Option Profile) (h : admitted room code = false) :
    ∃ m, (onJoinRoom st sock roomId code room profile).emits = [⟨sock.id, .error m⟩] := by
  unfold onJoinRoom
  cases room with
  | none => exact ⟨_, rfl⟩
  | some r =>
    simp only [admitted, Bool.not_eq_false'] at h
    simp only []
    rw [if_pos h]
    exact ⟨_, rfl⟩

/-- C16: `join-room` admits the requester exactly when the room record exists
and the room is not private or its `access_code` equals the supplied code.
When the condition holds the presence entry is inserted, `currentRoom` is set
and `room-participants` is emitted to the requester; when it fails the state
is unchanged and the only events are errors to the requester. The condition
mentions neither the state (so not the number of users present) nor
`max_participants`, whose value does not change the outcome; a public room
admits every access code. -/
theorem C16_admission_rule (st : Server) (sid R : Nat) (sock : Socket) (code : JsCode)
    (room : Option RoomRecord) (profile : Option Profile)
    (hlive : findSocket st sid = some sock) :
    ((∃ r, room = some r ∧ (r.is_private = false ∨ r.access_code = code)) →
      presenceEntry (step st (.joinRoom sid R code room profile)).state R sock.userId =
        some (joinUserData sock profile) ∧
      (findSocket (step st (.joinRoom sid R code room profile)).state sid).map (·.currentRoom)
        = some (some R) ∧
      (⟨sid, .roomParticipants
          (presenceList (step st (.joinRoom sid R code room profile)).state R)⟩ : Emit) ∈
        (step st (.joinRoom sid R code room profile)).emits) ∧
    (¬ (∃ r, room = some r ∧ (r.is_private = false ∨ r.access_code = code)) →
      (step st (.joinRoom sid R code room profile)).state = st ∧
      ∀ e ∈ (step st (.joinRoom sid R code room profile)).emits,
        e.dest = sid ∧ ∃ m, e.event = .error m) ∧
    (∀ r n, room = some r →
      step st (.joinRoom sid R code (some { r with max_participants := n }) profile) =
        step st (.joinRoom sid R code room profile)) ∧
    (∀ r other, room = some r → r.is_private = false →
      ∃ l, (⟨sid, .roomParticipants l⟩ : Emit) ∈
        (step st (.joinRoom sid R other room profile)).emits) := by
  have hid := (findSocket_some hlive).2
  have hyes : ∀ c2, admitted room c2 = true →
      presenceEntry (step st (.joinRoom sid R c2 room profile)).state R sock.userId =
        some (joinUserData sock profile) ∧
      (findSocket (step st (.joinRoom sid R c2 room profile)).state sid).map (·.currentRoom)
        = some (some R) ∧
      (⟨sid, .roomParticipants
          (presenceList (step st (.joinRoom sid R c2 room profile)).state R)⟩ : Emit) ∈
        (step st (.joinRoom sid R c2 room profile)).emits := by
    intro c2 hadm
    simp only [step, hlive]
    rw [onJoinRoom_admitted _ _ _ _ _ _ hadm, onJoinRoom_emits _ _ _ _ _ _ hadm]
    refine ⟨?_, ?_, ?_⟩
    · simp only [presenceEntry, presenceEntries_join_self]
      exact JsMap.get?_set_self _ _ _
    · rw [findSocket_joinSockets st sock R sid _ _ hlive]
      rfl
    · simp only [presenceList, presenceEntries_join_self, hid]
      exact List.mem_append_right _ (List.mem_singleton.mpr rfl)
  refine ⟨?_, ?_, ?_, ?_⟩
  · intro hc
    exact hyes code ((admitted_iff room code).mpr hc)
  · intro hc
    have hadm : admitted room code = false := by
      cases h : admitted room code with
      | false => rfl
      | true => exact absurd ((admitted_iff room code).mp h) hc
    simp only [step, hlive]
    refine ⟨onJoinRoom_rejected _ _ _ _ _ _ hadm, ?_⟩
    obtain ⟨m, hm⟩ := onJoinRoom_rejected_emits st sock R code room profile hadm
    rw [hm]
    intro e he
    simp only [List.mem_singleton] at he
    subst he
    exact ⟨hid, m, rfl⟩
  · intro r n hr
    subst hr
    simp only [step, hlive, onJoinRoom]
  · intro r other hr hpub
    exact ⟨_, (hyes other ((admitted_iff room other).mpr ⟨r, hr, Or.inl hpub⟩)).2.2⟩

theorem C16_witness :
    findSocket (run init oneInRoom) 11 = some ⟨11, 2, "b@x", none, []⟩ ∧
    (∃ r, some roomThree = some r ∧
      (r.is_private = false ∨ r.access_code = JsCode.str "s3cret")) ∧
    presenceEntry (step (run init oneInRoom)
        (.joinRoom 11 3 (.str "s3cret") (some roomThree) none)).state 3 2 =
      some (joinUserData ⟨11, 2, "b@x", none, []⟩ none) ∧
    (step (run init oneInRoom) (.joinRoom 11 3 (.str "wrong") (some roomThree) none)).state =
      run init oneInRoom :=
  ⟨by decide, ⟨roomThree, rfl, Or.inr (by decide)⟩,
    ((C16_admission_rule (run init oneInRoom) 11 3 ⟨11, 2, "b@x", none, []⟩ (.str "s3cret")
      (some roomThree) none (by decide)).1 ⟨roomThree, rfl, Or.inr (by decide)⟩).1,
    by decide⟩

/-! ## One presence entry per user -/

theorem JsMap.nodup_keys_set {α : Type} (m : JsMap α) (k : Nat) (v : α)
    (h : (JsMap.keys m).Nodup) : (JsMap.keys (JsMap.set m k v)).Nodup := by
  by_cases hk : k ∈ JsMap.keys m
  · rw [JsMap.keys_set_of_mem m k v hk]
    exact h
  · rw [JsMap.set_of_not_mem m k v hk]
    simp only [JsMap.keys, List.map_append, List.map_cons, List.map_nil]
    rw [List.nodup_append]
    refine ⟨h, List.nodup_singleton _, ?_⟩
    intro a ha hb
    simp only [List.mem_singleton] at hb
    subst hb
    exact hk ha

theorem JsMap.nodup_keys_delete {α : Type} (m : JsMap α) (k : Nat)
    (h : (JsMap.keys m).Nodup) : (JsMap.keys (JsMap.delete m k)).Nodup := by
  unfold JsMap.keys JsMap.delete
  exact ((List.filter_sublist m).map Prod.fst).nodup h

theorem JsMap.get?_of_get?_delete {α : Type} (m : JsMap α) (k u : Nat) (e : α)
    (h : JsMap.get? (JsMap.delete m k) u = some e) : JsMap.get? m u = some e := by
  by_cases hu : u = k
  · subst hu
    rw [JsMap.get?_delete_self] at h
    cases h
  · rwa [JsMap.get?_delete_ne m k u hu] at h

theorem entries_step (st : Server) (L : Nat → Nat → Option Nat) (inp : Input)
    (hnd : ∀ R, (presenceKeys st R).Nodup)
    (hL : ∀ R u e, presenceEntry st R u = some e →
      e.userId = u ∧ L R u = some e.socketId) :
    (∀ R, (presenceKeys (step st inp).state R).Nodup) ∧
    (∀ R u e, presenceEntry (step st inp).state R u = some e →
      e.userId = u ∧ lastJoinStep st inp L R u = some e.socketId) := by
  cases inp with
  | connection sid uid email =>
    simp only [step, onConnection, lastJoinStep]
    split
    · exact ⟨hnd, hL⟩
    · exact ⟨fun R => hnd R, fun R u e h => hL R u e h⟩
  | joinRoom sid roomId code room profile =>
    simp only [step, lastJoinStep]
    cases hf : findSocket st sid with
    | none => exact ⟨hnd, hL⟩
    | some sock =>
      simp only
      cases ha : admitted room code with
      | false =>
        rw [onJoinRoom_rejected _ _ _ _ _ _ ha]
        simp only [Bool.false_eq_true, if_false]
        exact ⟨hnd, hL⟩
      | true =>
        rw [onJoinRoom_admitted _ _ _ _ _ _ ha]
        simp only [if_true]
        refine ⟨?_, ?_⟩
        · intro R
          by_cases hR : R = roomId
          · subst hR
            simp only [presenceKeys, presenceEntries_join_self]
            exact JsMap.nodup_keys_set _ _ _ (hnd R)
          · simp only [presenceKeys, presenceEntries_join_ne _ _ _ _ _ _ _ hR]
            exact hnd R
        · intro R u e he
          by_cases hR : R = roomId
          · subst hR
            simp only [presenceEntry, presenceEntries_join_self] at he
            by_cases hu : u = sock.userId
            · subst hu
              rw [JsMap.get?_set_self] at he
              cases he
              simp [joinUserData]
            · rw [JsMap.get?_set_ne _ _ _ _ hu] at he
              have := hL R u e he
              simp [hu, this]
          · simp only [presenceEntry, presenceEntries_join_ne _ _ _ _ _ _ _ hR] at he
            have := hL R u e he
            simp [hR, this]
  | sendMessage sid content message profile =>
    simp only [step, lastJoinStep]
    cases hf : findSocket st sid with
    | none => exact ⟨hnd, hL⟩
    | some sock => simp only [onSendMessage_state]; exact ⟨hnd, hL⟩
  | pinMessage sid messageId room pin =>
    simp only [step, lastJoinStep]
    cases hf : findSocket st sid with
    | none => exact ⟨hnd, hL⟩
    | some sock => simp only [onPinMessage_state]; exact ⟨hnd, hL⟩
  | webrtcSignal sid signal target =>
    simp only [step, lastJoinStep]
    cases hf : findSocket st sid with
    | none => exact ⟨hnd, hL⟩
    | some sock => exact ⟨hnd, hL⟩
  | disconnecting sid =>
    simp only [step, lastJoinStep]
    cases hf : findSocket st sid with
    | none => exact ⟨hnd, hL⟩
    | some sock =>
      simp only
      have hrooms := onDisconnecting_rooms st sock
      have hpe : ∀ R, presenceEntries (onDisconnecting st sock).state R =
          presenceEntries ⟨leaveRooms st sock, [], []⟩ R :=
        fun R => presenceEntries_congr _ ⟨leaveRooms st sock, [], []⟩ R hrooms
      refine ⟨?_, ?_⟩
      · intro R
        simp only [presenceKeys, hpe]
        by_cases hc : sock.currentRoom = some R
        · rw [presenceEntries_leave_self _ _ _ _ _ hc]
          exact JsMap.nodup_keys_delete _ _ (hnd R)
        · rw [presenceEntries_leave_other _ _ _ _ _ hc]
          exact hnd R
      · intro R u e he
        simp only [presenceEntry, hpe] at he
        by_cases hc : sock.currentRoom = some R
        · rw [presenceEntries_leave_self _ _ _ _ _ hc] at he
          exact hL R u e (JsMap.get?_of_get?_delete _ _ _ _ he)
        · rw [presenceEntries_leave_other _ _ _ _ _ hc] at he
          exact hL R u e he

theorem entries_run (evs : List Input) (st : Server) (L : Nat → Nat → Option Nat)
    (hnd : ∀ R, (presenceKeys st R).Nodup)
    (hL : ∀ R u e, presenceEntry st R u = some e →
      e.userId = u ∧ L R u = some e.socketId) :
    (∀ R, (presenceKeys (run st evs) R).Nodup) ∧
    (∀ R u e, presenceEntry (run st evs) R u = some e →
      e.userId = u ∧ lastJoinRun st L evs R u = some e.socketId) := by
  induction evs generalizing st L with
  | nil => exact ⟨hnd, hL⟩
  | cons inp rest ih =>
    obtain ⟨h1, h2⟩ := entries_step st L inp hnd hL
    exact ih _ _ h1 h2

/-- C15: in every reachable state each room's `users` map has pairwise
distinct keys, so at most one presence entry per user identity; the entry
stored for a user is keyed by its own `userId` and carries the connection id
of that user's most recent admitted join of the room; and a join by a user
already present leaves the key list (hence the number of entries) as it was
and replaces the entry by the one of the joining connection. -/
theorem C15_one_entry_per_user (evs : List Input) (R : Nat) :
    (presenceKeys (run init evs) R).Nodup ∧
    (∀ u e, presenceEntry (run init evs) R u = some e →
      e.userId = u ∧ lastJoin evs R u = some e.socketId) ∧
    (∀ sid sock code room profile,
      findSocket (run init evs) sid = some sock → admitted room code = true →
      sock.userId ∈ presenceKeys (run init evs) R →
      presenceKeys (step (run init evs) (.joinRoom sid R code room profile)).state R =
        presenceKeys (run init evs) R ∧
      presenceEntry (step (run init evs) (.joinRoom sid R code room profile)).state R
        sock.userId = some (joinUserData sock profile) ∧
      (joinUserData sock profile).socketId = sid) := by
  have hinit : ∀ R, (presenceKeys init R).Nodup := by
    intro R
    simp [presenceKeys, presenceEntries, init, JsMap.get?, JsMap.keys]
  have hL0 : ∀ R u e, presenceEntry init R u = some e →
      e.userId = u ∧ (fun _ _ => none : Nat → Nat → Option Nat) R u = some e.socketId := by
    intro R u e h
    simp [presenceEntry, presenceEntries, init, JsMap.get?] at h
  obtain ⟨h1, h2⟩ := entries_run evs init (fun _ _ => none) hinit hL0
  refine ⟨h1 R, fun u e h => h2 R u e h, ?_⟩
  intro sid sock code room profile hlive hadm hmem
  have hid := (findSocket_some hlive).2
  simp only [step, hlive]
  rw [onJoinRoom_admitted _ _ _ _ _ _ hadm]
  simp only [presenceKeys, presenceEntry, presenceEntries_join_self]
  exact ⟨JsMap.keys_set_of_mem _ _ _ hmem, JsMap.get?_set_self _ _ _, hid⟩

theorem C15_witness :
    presenceKeys (run init rejoinOtherTab) 1 = [1, 2] ∧
    presenceEntry (run init rejoinOtherTab) 1 1 = some ⟨11, 1, "Unknown", "👤"⟩ ∧
    ((⟨11, 1, "Unknown", "👤"⟩ : UserData).userId = 1 ∧
      lastJoin rejoinOtherTab 1 1 = some (⟨11, 1, "Unknown", "👤"⟩ : UserData).socketId) :=
  ⟨by decide, by decide,
    (C15_one_entry_per_user rejoinOtherTab 1).2.1 1 ⟨11, 1, "Unknown", "👤"⟩ (by decide)⟩

/-! ## Room lifetime, registry and backing connections -/

theorem JsMap.set_ne_nil {α : Type} (m : JsMap α) (k : Nat) (v : α) : JsMap.set m k v ≠ [] := by
  cases m with
  | nil => simp [JsMap.set]
  | cons p t =>
    obtain ⟨k0, v0⟩ := p
    by_cases h : k0 = k <;> simp [JsMap.set, h]

theorem emptyRoom_step (st : Server) (inp : Input) (R : Nat) (rd : RoomData)
    (h : (step st inp).state.activeRooms.get? R = some rd) (he : rd.users = []) :
    ∃ rd0, st.activeRooms.get? R = some rd0 ∧ rd0.users = [] := by
  cases inp with
  | connection sid uid email =>
    simp only [step, onConnection] at h
    split at h <;> exact ⟨rd, h, he⟩
  | joinRoom sid roomId code room profile =>
    simp only [step] at h
    cases hf : findSocket st sid with
    | none => rw [hf] at h; exact ⟨rd, h, he⟩
    | some sock =>
      rw [hf] at h
      simp only at h
      cases ha : admitted room code with
      | false =>
        rw [onJoinRoom_rejected _ _ _ _ _ _ ha] at h
        exact ⟨rd, h, he⟩
      | true =>
        rw [onJoinRoom_admitted _ _ _ _ _ _ ha] at h
        simp only at h
        by_cases hR : R = roomId
        · subst hR
          rw [joinRooms_get_self] at h
          simp only [Option.some.injEq] at h
          subst h
          exact absurd he (JsMap.set_ne_nil _ _ _)
        · rw [joinRooms_get_ne _ _ _ _ _ hR] at h
          exact ⟨rd, h, he⟩
  | sendMessage sid content message profile =>
    simp only [step] at h
    cases hf : findSocket st sid with
    | none => rw [hf] at h; exact ⟨rd, h, he⟩
    | some sock =>
      rw [hf] at h
      simp only [onSendMessage_state] at h
      exact ⟨rd, h, he⟩
  | pinMessage sid messageId room pin =>
    simp only [step] at h
    cases hf : findSocket st sid with
    | none => rw [hf] at h; exact ⟨rd, h, he⟩
    | some sock =>
      rw [hf] at h
      simp only [onPinMessage_state] at h
      exact ⟨rd, h, he⟩
  | webrtcSignal sid signal target =>
    simp only [step] at h
    cases hf : findSocket st sid with
    | none => rw [hf] at h; exact ⟨rd, h, he⟩
    | some sock => rw [hf] at h; exact ⟨rd, h, he⟩
  | disconnecting sid =>
    simp only [step] at h
    cases hf : findSocket st sid with
    | none => rw [hf] at h; exact ⟨rd, h, he⟩
    | some sock =>
      rw [hf] at h
      simp only at h
      rw [onDisconnecting_rooms] at h
      by_cases hc : sock.currentRoom = some R
      · cases hg : st.activeRooms.get? R with
        | none =>
          have : (leaveRooms st sock).get? R = none := by
            unfold leaveRooms
            simp only [hc, hg]
          rw [this] at h
          cases h
        | some rd0 =>
          rw [leaveRooms_get_self _ _ R rd0 hc hg] at h
          by_cases hd : rd0.users.delete sock.userId = []
          · simp [hd] at h
          · simp only [hd, if_false, Option.some.injEq] at h
            subst h
            exact absurd he hd
      · rw [leaveRooms_get_of_ne _ _ _ hc] at h
        exact ⟨rd, h, he⟩

theorem emptyRoom_run (evs : List Input) (st : Server) (R : Nat) (rd : RoomData)
    (h : (run st evs).activeRooms.get? R = some rd) (he : rd.users = []) :
    ∃ rd0, st.activeRooms.get? R = some rd0 ∧ rd0.users = [] := by
  induction evs generalizing st rd with
  | nil => exact ⟨rd, h, he⟩
  | cons inp rest ih =>
    obtain ⟨rd1, h1, he1⟩ := ih (step st inp).state rd h he
    exact emptyRoom_step st inp R rd1 h1 he1

theorem emptyRoom_stepAll (st : Server) (ev : ServerEvent) (R : Nat) (rd : RoomData)
    (h : (stepAll st ev).activeRooms.get? R = some rd) (he : rd.users = []) :
    (∃ rd0, st.activeRooms.get? R = some rd0 ∧ rd0.users = []) ∨ createdId ev = some R := by
  cases ev with
  | socket inp => exact Or.inl (emptyRoom_step st inp R rd h he)
  | createRoom name room =>
    simp only [stepAll, createStudyRoom] at h
    cases name with
    | none => exact Or.inl ⟨rd, h, he⟩
    | some n =>
      simp only at h
      by_cases hn : n = ""
      · rw [if_pos hn] at h
        exact Or.inl ⟨rd, h, he⟩
      · rw [if_neg hn] at h
        cases room with
        | none => exact Or.inl ⟨rd, h, he⟩
        | some r =>
          simp only at h
          by_cases hR : R = r.id
          · exact Or.inr (by simp [createdId, hn, hR])
          · rw [JsMap.get?_set_ne _ _ _ _ hR] at h
            exact Or.inl ⟨rd, h, he⟩

theorem emptyRoom_runAll (evs : List ServerEvent) (st : Server) (R : Nat) (rd : RoomData)
    (h : (runAll st evs).activeRooms.get? R = some rd) (he : rd.users = []) :
    (∃ rd0, st.activeRooms.get? R = some rd0 ∧ rd0.users = []) ∨ R ∈ createdIds evs := by
  induction evs generalizing st rd with
  | nil => exact Or.inl ⟨rd, h, he⟩
  | cons ev rest ih =>
    rcases ih (stepAll st ev) rd h he with ⟨rd1, h1, he1⟩ | hin
    · rcases emptyRoom_stepAll st ev R rd1 h1 he1 with hold | hnew
      · exact Or.inl hold
      · refine Or.inr ?_
        simp only [createdIds, List.filterMap_cons, hnew]
        exact List.mem_cons_self _ _
    · refine Or.inr ?_
      simp only [createdIds, List.filterMap_cons]
      cases createdId ev with
      | none => exact hin
      | some x => exact List.mem_cons_of_mem _ hin

theorem has_of_presence (st : Server) (R : Nat) (h : presenceEntries st R ≠ []) :
    st.activeRooms.has R = true := by
  unfold presenceEntries at h
  unfold JsMap.has
  cases hg : st.activeRooms.get? R with
  | none => rw [hg] at h; exact absurd rfl h
  | some rd => rfl

/-- C17 as stated fails: after one HTTP room creation that stores the record
of room 1, room 1 is a key of `activeRooms` and its `users` map is empty. -/
theorem C17_counterexample :
    ¬ (∀ (evs : List ServerEvent) (R : Nat),
        (runAll init evs).activeRooms.has R = true ↔
          presenceEntries (runAll init evs) R ≠ []) := by
  intro h
  have h1 := (h [.createRoom (some "Algebra") (some roomOne)] 1).mp (by decide)
  exact absurd h1 (by decide)

/-- C17 amended: in every state reachable through server handlers, a room
with a non-empty `users` map is a key of `activeRooms`, and a key of
`activeRooms` has a non-empty `users` map unless its id was stored by an HTTP
room creation; in particular, in every state reachable through the socket
handlers alone a room id is a key of `activeRooms` if and only if its `users`
map is non-empty. -/
theorem C17_room_state_has_members (evs : List ServerEvent) (sevs : List Input) (R : Nat) :
    (presenceEntries (runAll init evs) R ≠ [] →
      (runAll init evs).activeRooms.has R = true) ∧
    ((runAll init evs).activeRooms.has R = true →
      presenceEntries (runAll init evs) R ≠ [] ∨ R ∈ createdIds evs) ∧
    ((run init sevs).activeRooms.has R = true ↔ presenceEntries (run init sevs) R ≠ []) := by
  refine ⟨has_of_presence _ R, ?_, ?_, has_of_presence _ R⟩
  · intro hhas
    by_cases hp : presenceEntries (runAll init evs) R = []
    · refine Or.inr ?_
      unfold JsMap.has at hhas
      cases hg : (runAll init evs).activeRooms.get? R with
      | none => rw [hg] at hhas; cases hhas
      | some rd =>
        have he : rd.users = [] := by simpa [presenceEntries, hg] using hp
        rcases emptyRoom_runAll evs init R rd hg he with ⟨rd0, h0, _⟩ | hin
        · simp [init, JsMap.get?] at h0
        · exact hin
    · exact Or.inl hp
  · intro hhas hp
    unfold JsMap.has at hhas
    cases hg : (run init sevs).activeRooms.get? R with
    | none => rw [hg] at hhas; cases hhas
    | some rd =>
      have he : rd.users = [] := by simpa [presenceEntries, hg] using hp
      obtain ⟨rd0, h0, _⟩ := emptyRoom_run sevs init R rd hg he
      simp [init, JsMap.get?] at h0

theorem C17_witness :
    (runAll init [.createRoom (some "Algebra") (some roomOne)]).activeRooms.has 1 = true ∧
    (presenceEntries (runAll init [.createRoom (some "Algebra") (some roomOne)]) 1 ≠ [] ∨
      1 ∈ createdIds [.createRoom (some "Algebra") (some roomOne)]) ∧
    ((run init joinThenLeave).activeRooms.has 1 = true ↔
      presenceEntries (run init joinThenLeave) 1 ≠ []) :=
  ⟨by decide,
    (C17_room_state_has_members [.createRoom (some "Algebra") (some roomOne)] joinThenLeave
      1).2.1 (by decide),
    (C17_room_state_has_members [.createRoom (some "Algebra") (some roomOne)] joinThenLeave
      1).2.2⟩

/-- C18 fails on the code: user 1 opens connection 10, then connection 11,
then the older connection 10 closes. Connection 11 is still live, yet
`connectedUsers` holds no entry for user 1; before the close the entry named
connection 11. -/
theorem C18_older_close_unregisters_user :
    (run init [.connection 10 1 "a@x", .connection 11 1 "a@x"]).connectedUsers.get? 1 =
      some ⟨11, 1, "a@x"⟩ ∧
    findSocket (run init olderTabClosed) 11 = some ⟨11, 1, "a@x", none, []⟩ ∧
    (run init olderTabClosed).connectedUsers.get? 1 = none := by
  decide

/-- C19 fails on the code: connection 10 of user 1 joins room 1, then room 2.
Room 1 keeps an entry with `socketId` 10 although the `currentRoom` of
connection 10 is room 2; after connection 10 has disconnected, it is live no
more and room 1 still holds that entry. -/
theorem C19_stale_entry_after_room_switch :
    presenceEntry (run init switchThenClose.dropLast) 1 1 = some ⟨10, 1, "Unknown", "👤"⟩ ∧
    (findSocket (run init switchThenClose.dropLast) 10).map (·.currentRoom) =
      some (some 2) ∧
    findSocket (run init switchThenClose) 10 = none ∧
    (run init switchThenClose).sockets = [] ∧
    presenceEntry (run init switchThenClose) 1 1 = some ⟨10, 1, "Unknown", "👤"⟩ := by
  decide

/-! ## Claims on signalling state, escaping exceptions and authentication -/

/-- The relay does not look at the sender's room state: a `webrtc-signal`
targeted at another live connection is delivered to that connection with the
sender's id whatever the sender's `currentRoom` is. -/
theorem webrtcSignal_reaches_live_target (st : Server) (sid : Nat) (sock target : Socket)
    (signal : String) (t : Nat)
    (hlive : findSocket st sid = some sock)
    (htarget : findSocket st t = some target)
    (hother : t ≠ sid) :
    (⟨t, .webrtcSignal signal sid⟩ : Emit) ∈ (step st (.webrtcSignal sid signal t)).emits := by
  have hid := (findSocket_some hlive).2
  obtain ⟨hm, htid⟩ := findSocket_some htarget
  simp only [step, hlive, onWebrtcSignal, hid]
  refine (mem_socketTo _ _ _ _ _).mpr ⟨target, hm, ?_, ?_, by rw [htid]⟩
  · rw [htid]; exact hother
  · simp only [inRoom, Bool.or_eq_true, decide_eq_true_eq]
    exact Or.inl htid.symm

/-- C21 fails on the code: connection 11 has joined no room, so its
`currentRoom` is unset, and its `webrtc-signal` targeted at connection 10 is
relayed to connection 10; unlike `send-message` and `pin-message`, the
handler does not test `currentRoom`. -/
theorem C21_roomless_sender_is_relayed :
    findSocket (run init oneInRoom) 11 = some ⟨11, 2, "b@x", none, []⟩ ∧
    (step (run init oneInRoom) (.webrtcSignal 11 "offer" 10)).emits =
      [⟨10, .webrtcSignal "offer" 11⟩] ∧
    (step (run init oneInRoom) (.sendMessage 11 (.text "hi") (some ⟨1, 1⟩) none)).emits = [] := by
  decide

/-- C22 fails on the code: when a client emits `join-room`, `send-message`,
`pin-message` or `webrtc-signal` without an argument, the listener's
parameter destructuring throws before any `try` is entered: the exception
leaves the listener and no `error` event is produced. With an argument
present the same listeners run to their end. -/
theorem C22_missing_payload_escapes (st : Server) (sock : Socket)
    (room : Option RoomRecord) (profile : Option Profile)
    (message : Option StoredMessage) (pin : Option StoredPin) :
    joinRoomListener st sock none room profile = .escaped ∧
    sendMessageListener st sock none message profile = .escaped ∧
    pinMessageListener st sock none room pin = .escaped ∧
    webrtcSignalListener st sock none = .escaped ∧
    joinRoomListener st sock (some ⟨9, .undefined⟩) none profile =
      .completed ⟨st, [⟨sock.id, .error "Room not found"⟩], [.selectRoom 9]⟩ :=
  ⟨rfl, rfl, rfl, rfl, rfl⟩

/-- C23: `socketAuth` refuses the handshake exactly when it carries no token
or the token does not verify; otherwise it accepts with `userId` and
`userEmail` taken from the verified payload. After a refused handshake the
state is unchanged, the connection is not live, and a `join-room`,
`send-message`, `pin-message` or `webrtc-signal` naming it is not handled. -/
theorem C23_socketAuth_gate (verify : String → Option TokenPayload) (token : Option String) :
    ((∃ msg, socketAuth verify token = .refused msg) ↔
      (token = none ∨ token = some "" ∨ ∃ t, token = some t ∧ verify t = none)) ∧
    (∀ t user, token = some t → t ≠ "" → verify t = some user →
      socketAuth verify token = .accepted user.id user.email) ∧
    (∀ msg st sid, socketAuth verify token = .refused msg → findSocket st sid = none →
      onHandshake verify st sid token = ⟨st, [], []⟩ ∧
      (∀ R code room profile, step st (.joinRoom sid R code room profile) = ⟨st, [], []⟩) ∧
      (∀ content message profile,
        step st (.sendMessage sid content message profile) = ⟨st, [], []⟩) ∧
      (∀ messageId room pin, step st (.pinMessage sid messageId room pin) = ⟨st, [], []⟩) ∧
      (∀ signal t, step st (.webrtcSignal sid signal t) = ⟨st, [], []⟩)) := by
  refine ⟨?_, ?_, ?_⟩
  · cases token with
    | none => simp [socketAuth]
    | some t =>
      by_cases ht : t = ""
      · simp [socketAuth, ht]
      · cases hv : verify t with
        | none => simp [socketAuth, ht, hv]
        | some user => simp [socketAuth, ht, hv]
  · intro t user htok ht hv
    subst htok
    simp [socketAuth, ht, hv]
  · intro msg st sid href hnone
    refine ⟨?_, ?_, ?_, ?_, ?_⟩
    · simp only [onHandshake, href]
    · intro R code room profile
      simp only [step, hnone]
    · intro content message profile
      simp only [step, hnone]
    · intro messageId room pin
      simp only [step, hnone]
    · intro signal t
      simp only [step, hnone]

theorem C23_witness :
    socketAuth sampleVerify (some "good") = .accepted 7 "g@x" ∧
    socketAuth sampleVerify (some "forged") = .refused "Authentication error" ∧
    onHandshake sampleVerify (run init oneInRoom) 12 (some "forged") =
      ⟨run init oneInRoom, [], []⟩ :=
  ⟨(C23_socketAuth_gate sampleVerify (some "good")).2.1 "good" ⟨7, "g@x"⟩ rfl (by decide)
      (by decide),
    by decide,
    ((C23_socketAuth_gate sampleVerify (some "forged")).2.2 "Authentication error"
      (run init oneInRoom) 12 (by decide) (by decide)).1⟩

/-! ## Message buffer and room isolation -/

theorem buffers_step (st : Server) (inp : Input)
    (h0 : ∀ R rd, st.activeRooms.get? R = some rd → rd.messages = [] ∧ rd.pinnedMessages = [])
    (R : Nat) (rd : RoomData)
    (h : (step st inp).state.activeRooms.get? R = some rd) :
    rd.messages = [] ∧ rd.pinnedMessages = [] := by
  cases inp with
  | connection sid uid email =>
    simp only [step, onConnection] at h
    split at h <;> exact h0 R rd h
  | joinRoom sid roomId code room profile =>
    simp only [step] at h
    cases hf : findSocket st sid with
    | none => rw [hf] at h; exact h0 R rd h
    | some sock =>
      rw [hf] at h
      simp only at h
      cases ha : admitted room code with
      | false =>
        rw [onJoinRoom_rejected _ _ _ _ _ _ ha] at h
        exact h0 R rd h
      | true =>
        rw [onJoinRoom_admitted _ _ _ _ _ _ ha] at h
        simp only at h
        by_cases hR : R = roomId
        · subst hR
          rw [joinRooms_get_self] at h
          simp only [Option.some.injEq] at h
          subst h
          cases hg : st.activeRooms.get? R with
          | none => exact ⟨rfl, rfl⟩
          | some rd0 => exact h0 R rd0 hg
        · rw [joinRooms_get_ne _ _ _ _ _ hR] at h
          exact h0 R rd h
  | sendMessage sid content message profile =>
    simp only [step] at h
    cases hf : findSocket st sid with
    | none => rw [hf] at h; exact h0 R rd h
    | some sock =>
      rw [hf] at h
      simp only [onSendMessage_state] at h
      exact h0 R rd h
  | pinMessage sid messageId room pin =>
    simp only [step] at h
    cases hf : findSocket st sid with
    | none => rw [hf] at h; exact h0 R rd h
    | some sock =>
      rw [hf] at h
      simp only [onPinMessage_state] at h
      exact h0 R rd h
  | webrtcSignal sid signal target =>
    simp only [step] at h
    cases hf : findSocket st sid with
    | none => rw [hf] at h; exact h0 R rd h
    | some sock => rw [hf] at h; exact h0 R rd h
  | disconnecting sid =>
    simp only [step] at h
    cases hf : findSocket st sid with
    | none => rw [hf] at h; exact h0 R rd h
    | some sock =>
      rw [hf] at h
      simp only at h
      rw [onDisconnecting_rooms] at h
      by_cases hc : sock.currentRoom = some R
      · cases hg : st.activeRooms.get? R with
        | none =>
          have : (leaveRooms st sock).get? R = none := by
            unfold leaveRooms
            simp only [hc, hg]
          rw [this] at h
          cases h
        | some rd0 =>
          rw [leaveRooms_get_self _ _ R rd0 hc hg] at h
          by_cases hd : rd0.users.delete sock.userId = []
          · simp [hd] at h
          · simp only [hd, if_false, Option.some.injEq] at h
            subst h
            exact h0 R rd0 hg
      · rw [leaveRooms_get_of_ne _ _ _ hc] at h
        exact h0 R rd h

theorem buffers_stepAll (st : Server) (ev : ServerEvent)
    (h0 : ∀ R rd, st.activeRooms.get? R = some rd → rd.messages = [] ∧ rd.pinnedMessages = [])
    (R : Nat) (rd : RoomData)
    (h : (stepAll st ev).activeRooms.get? R = some rd) :
    rd.messages = [] ∧ rd.pinnedMessages = [] := by
  cases ev with
  | socket inp => exact buffers_step st inp h0 R rd h
  | createRoom name room =>
    simp only [stepAll, createStudyRoom] at h
    cases name with
    | none => exact h0 R rd h
    | some n =>
      simp only at h
      by_cases hn : n = ""
      · rw [if_pos hn] at h
        exact h0 R rd h
      · rw [if_neg hn] at h
        cases room with
        | none => exact h0 R rd h
        | some r =>
          simp only at h
          by_cases hR : R = r.id
          · subst hR
            rw [JsMap.get?_set_self] at h
            cases h
            exact ⟨rfl, rfl⟩
          · rw [JsMap.get?_set_ne _ _ _ _ hR] at h
            exact h0 R rd h

theorem buffers_runAll (evs : List ServerEvent) (st : Server)
    (h0 : ∀ R rd, st.activeRooms.get? R = some rd → rd.messages = [] ∧ rd.pinnedMessages = []) :
    ∀ R rd, (runAll st evs).activeRooms.get? R = some rd →
      rd.messages = [] ∧ rd.pinnedMessages = [] := by
  induction evs generalizing st with
  | nil => exact h0
  | cons ev rest ih => exact ih (stepAll st ev) (fun R rd h => buffers_stepAll st ev h0 R rd h)

/-- C27 as stated fails: connection 11 sends "hello" in room 1 and the insert
returns a row (the message is accepted and relayed), yet the `messages` list
of room 1 is as empty afterwards as it was before. -/
theorem C27_counterexample :
    ¬ (∀ (evs : List Input) (sid R : Nat) (sock : Socket) (c : String) (m : StoredMessage)
        (profile : Option Profile),
        findSocket (run init evs) sid = some sock → sock.currentRoom = some R →
        jsTrim c ≠ "" →
        ∃ rd rd2, (run init evs).activeRooms.get? R = some rd ∧
          (step (run init evs) (.sendMessage sid (.text c) (some m) profile)).state.activeRooms.get? R
            = some rd2 ∧
          rd2.messages = rd.messages ++ [sendMessageData sock c m profile]) := by
  intro h
  obtain ⟨rd, rd2, h1, h2, h3⟩ := h threeInRoom 11 1 ⟨11, 2, "b@x", some 1, [1]⟩ "hello"
    ⟨42, 7⟩ none (by decide) rfl (by decide)
  have hst : (step (run init threeInRoom)
      (.sendMessage 11 (.text "hello") (some ⟨42, 7⟩) none)).state = run init threeInRoom := by
    decide
  rw [hst, h1] at h2
  cases h2
  have := congrArg List.length h3
  simp at this

/-- C27 amended: no `send-message` changes `activeRooms`: the handler persists
through `room_messages` and relays, and buffers nothing; in every state
reachable through the server handlers the `messages` list and the
`pinnedMessages` list of every `RoomState` are empty. -/
theorem C27_no_message_buffer (evs : List ServerEvent) (st : Server) (sid : Nat)
    (content : Content) (message : Option StoredMessage) (profile : Option Profile) :
    (step st (.sendMessage sid content message profile)).state = st ∧
    (∀ R rd, (runAll init evs).activeRooms.get? R = some rd →
      rd.messages = [] ∧ rd.pinnedMessages = []) := by
  refine ⟨?_, ?_⟩
  · simp only [step]
    cases findSocket st sid with
    | none => rfl
    | some sock => exact onSendMessage_state _ _ _ _ _
  · apply buffers_runAll evs init
    intro R rd h
    simp [init, JsMap.get?] at h

theorem C27_witness :
    (runAll init (threeInRoom.map ServerEvent.socket)).activeRooms.get? 1 =
      some ⟨[(1, ⟨10, 1, "Unknown", "👤"⟩), (2, ⟨11, 2, "Unknown", "👤"⟩),
        (3, ⟨12, 3, "Unknown", "👤"⟩)], [], []⟩ ∧
    ((⟨[(1, ⟨10, 1, "Unknown", "👤"⟩), (2, ⟨11, 2, "Unknown", "👤"⟩),
        (3, ⟨12, 3, "Unknown", "👤"⟩)], [], []⟩ : RoomData).messages = [] ∧
     (⟨[(1, ⟨10, 1, "Unknown", "👤"⟩), (2, ⟨11, 2, "Unknown", "👤"⟩),
        (3, ⟨12, 3, "Unknown", "👤"⟩)], [], []⟩ : RoomData).pinnedMessages = []) :=
  ⟨by decide,
    (C27_no_message_buffer (threeInRoom.map ServerEvent.socket) init 0 .missing none none).2 1 _
      (by decide)⟩

/-- C28 fails on the code: connection 10 joined room 1 and afterwards room 2,
so its `currentRoom` is 2; when connection 11 then joins room 1, sends a
message there and disconnects, the `user-joined`, `new-message` and
`user-left` events of room 1 are all delivered to connection 10. -/
theorem C28_room_events_reach_moved_connection :
    (findSocket (run init movedOnThenNewcomer) 10).map (·.currentRoom) = some (some 2) ∧
    (step (run init movedOnThenNewcomer.dropLast)
        (.joinRoom 11 1 .null (some roomOne) none)).emits =
      [⟨10, .userJoined ⟨11, 2, "Unknown", "👤"⟩⟩,
       ⟨11, .roomParticipants [⟨10, 1, "Unknown", "👤"⟩, ⟨11, 2, "Unknown", "👤"⟩]⟩] ∧
    (step (run init movedOnThenNewcomer)
        (.sendMessage 11 (.text "hello") (some ⟨42, 7⟩) none)).emits =
      [⟨10, .newMessage ⟨42, "hello", ⟨2, "Unknown", "👤"⟩, 7⟩⟩,
       ⟨11, .newMessage ⟨42, "hello", ⟨2, "Unknown", "👤"⟩, 7⟩⟩] ∧
    (step (run init movedOnThenNewcomer) (.disconnecting 11)).emits =
      [⟨10, .userLeft (some ⟨11, 2, "Unknown", "👤"⟩)⟩] := by
  decide

/-! ## Claims on the cache and the development database -/

theorem roundToDouble_exact (n : Int) (h : n.natAbs < 2 ^ 53) :
    roundToDouble n = .finite n := by
  unfold roundToDouble
  rw [if_pos h]

/-- C29 as stated fails: `cache.set` at time 1 with a ttl of `2 ^ 53`
seconds stores an expiry that the double addition rounds down to
`2 ^ 53 * 1000`; a `cache.get` at that time, which is earlier than
`T + 1000 * t`, returns `null`. -/
theorem C29_counterexample :
    ¬ (∀ (m : JsMap CacheEntry) (k v : Nat) (ttl : Option Int) (T T2 : Int),
        T2 < T + 1000 * ttl.getD 300 →
        (cache.get (cache.set (fun n : Nat => toString n) m k v ttl T) k T2).1 =
          some (toString v)) := by
  intro h
  have h1 := h [] 5 42 (some (2 ^ 53)) 1 (2 ^ 53 * 1000) (by decide)
  have h2 : (cache.get (cache.set (fun n : Nat => toString n) [] 5 42 (some (2 ^ 53)) 1) 5
      (2 ^ 53 * 1000)).1 = none := by decide
  rw [h2] at h1
  cases h1

/-- C29 amended: with Redis not configured, for an integer ttl `t` (default
300) and a clock time `T` such that `1000 * t` and `T + 1000 * t` have
magnitude below `2 ^ 53`, after `cache.set(k, v, t)` at time `T`:
`cache.get(k)` at time `T'` returns `JSON.stringify(v)` and keeps the cache
when `T' < T + 1000 * t`; it returns `null` and removes the entry when
`T' ≥ T + 1000 * t`; and after `cache.del(k)` the next `cache.get(k)` returns
`null`. -/
theorem C29_memory_cache_ttl {V : Type} (stringify : V → String) (m : JsMap CacheEntry)
    (k : Nat) (v : V) (ttl : Option Int) (T T2 : Int)
    (hprod : (1000 * ttl.getD 300).natAbs < 2 ^ 53)
    (hsum : (T + 1000 * ttl.getD 300).natAbs < 2 ^ 53) :
    (T2 < T + 1000 * ttl.getD 300 →
      cache.get (cache.set stringify m k v ttl T) k T2 =
        (some (stringify v), cache.set stringify m k v ttl T)) ∧
    (T + 1000 * ttl.getD 300 ≤ T2 →
      cache.get (cache.set stringify m k v ttl T) k T2 =
        (none, (cache.set stringify m k v ttl T).delete k) ∧
      ((cache.get (cache.set stringify m k v ttl T) k T2).2).get? k = none) ∧
    (∀ now, (cache.get (cache.del m k) k now).1 = none) := by
  have hcomm : ttl.getD 300 * 1000 = 1000 * ttl.getD 300 := Int.mul_comm _ _
  have hexp : jsPlus T (roundToDouble (ttl.getD 300 * 1000)) =
      .finite (T + 1000 * ttl.getD 300) := by
    rw [hcomm, roundToDouble_exact _ hprod]
    exact roundToDouble_exact _ hsum
  refine ⟨?_, ?_, ?_⟩
  · intro h
    simp only [cache.get, cache.set, JsMap.get?_set_self, hexp, jsGreater]
    rw [if_pos (by simpa using h)]
  · intro h
    simp only [cache.get, cache.set, JsMap.get?_set_self, hexp, jsGreater]
    rw [if_neg (by simpa using h)]
    exact ⟨rfl, JsMap.get?_delete_self _ _⟩
  · intro now
    simp only [cache.get, cache.del, JsMap.get?_delete_self]

theorem C29_witness :
    ((1000 * (some (60 : Int)).getD 300).natAbs < 2 ^ 53) ∧
    ((1700000000000 + 1000 * (some (60 : Int)).getD 300).natAbs < 2 ^ 53) ∧
    cache.get (cache.set (fun n : Nat => toString n) [] 5 42 (some 60) 1700000000000) 5
        1700000059999 =
      (some (toString 42),
        cache.set (fun n : Nat => toString n) [] 5 42 (some 60) 1700000000000) ∧
    cache.get (cache.set (fun n : Nat => toString n) [] 5 42 none 0) 5 300000 =
      (none, (cache.set (fun n : Nat => toString n) [] 5 42 none 0).delete 5) :=
  ⟨by decide, by decide,
    (C29_memory_cache_ttl (fun n : Nat => toString n) [] 5 42 (some 60) 1700000000000
      1700000059999 (by decide) (by decide)).1 (by decide),
    ((C29_memory_cache_ttl (fun n : Nat => toString n) [] 5 42 none 0 300000
      (by decide) (by decide)).2.1 (by decide)).1⟩

/-- C30 fails on the code: in a `SimpleDB` built without a data file,
`nextId` is computed before `initializeData` adds the default rooms 1, 2 and
3, so the first insert gets id 1, the id of a default room; inserted into
`study_rooms`, the record is hidden from `findById`, which returns the
default room. -/
theorem C30_first_insert_reuses_default_id :
    SimpleDB.create.nextId = 1 ∧
    SimpleDB.table SimpleDB.create.tables "study_rooms" = some SimpleDB.defaultRooms ∧
    (SimpleDB.create.insert "study_rooms" "Evening algebra").2 = ⟨1, "Evening algebra"⟩ ∧
    (SimpleDB.create.insert "study_rooms" "Evening algebra").1.findById "study_rooms" 1 =
      some ⟨1, "Silent Study Hall"⟩ ∧
    (SimpleDB.create.insert "users" "ada").2.id = 1 := by
  decide

/-! ## Claims on the client's peer negotiation -/

/-- A service whose listeners were registered once runs the listener of an
event once; after a second `initialize` (following `cleanup`) a `userJoined`
constructs two sessions, keeps the second under the peer's key and sends two
offers. -/
theorem clientDispatch_registrations (c : Client) (b : Browser) (ev : ClientEvent) :
    clientDispatch 1 c b ev = ((clientStep c b ev).state, (clientStep c b ev).effects) ∧
    sentSignals (clientDispatch 2 ⟨[], 0⟩ browserOk (.userJoined 20)).2 =
      [(.offer, 20), (.offer, 20)] ∧
    (clientDispatch 2 ⟨[], 0⟩ browserOk (.userJoined 20)).1 = ⟨[(20, ⟨1, 20, true⟩)], 2⟩ := by
  refine ⟨?_, by decide, by decide⟩
  simp [clientDispatch]

/-- C24 as stated fails: a client without sessions receives `userJoined` for
connection 20 while `new RTCPeerConnection` throws: no session is stored under
key 20. -/
theorem C24_counterexample :
    ¬ (∀ (c : Client) (b : Browser) (s : Nat),
        ((clientStep c b (.userJoined s)).state.peerConnections.get? s).isSome = true ∧
        ((clientStep c b (.userJoined s)).session.isSome = true →
          sentSignals (clientStep c b (.userJoined s)).effects = [(.offer, s)])) := by
  intro h
  have h1 := (h ⟨[], 0⟩ browserNoConstruct 20).1
  exact absurd h1 (by decide)

/-- C24 amended: in a service whose listeners were registered once, on
`userJoined` with connection id `s`: when the `RTCPeerConnection` can be
constructed a new initiator session is stored under key `s`; when it cannot,
nothing is stored and an error of type `peerConnection` is emitted;
`createPeerConnection` succeeds exactly when the construction, `createOffer`
and `setLocalDescription` all succeed, and then the signals sent are exactly
one `offer` targeted at `s`; when it fails no signal is sent and an error of
type `peerConnection` is emitted; a `roomParticipants` snapshot changes
nothing and sends nothing. -/
theorem C24_user_joined_offers (c : Client) (b : Browser) (s : Nat) :
    (b.construct = true →
      (clientStep c b (.userJoined s)).state.peerConnections.get? s =
        some ⟨c.constructed, s, true⟩) ∧
    (b.construct = false →
      clientStep c b (.userJoined s) = ⟨c, [.emitError "peerConnection" s], none⟩) ∧
    ((clientStep c b (.userJoined s)).session.isSome = true ↔
      (b.construct = true ∧ b.createOffer = true ∧ b.setLocalDescription = true)) ∧
    ((clientStep c b (.userJoined s)).session.isSome = true →
      (clientStep c b (.userJoined s)).state.peerConnections.get? s =
        some ⟨c.constructed, s, true⟩ ∧
      sentSignals (clientStep c b (.userJoined s)).effects = [(.offer, s)]) ∧
    ((clientStep c b (.userJoined s)).session = none →
      sentSignals (clientStep c b (.userJoined s)).effects = [] ∧
      ClientEffect.emitError "peerConnection" s ∈ (clientStep c b (.userJoined s)).effects) ∧
    (∀ l, clientStep c b (.roomParticipants l) = ⟨c, [], none⟩) := by
  simp only [clientStep, createPeerConnection]
  cases hc : b.construct <;> cases ho : b.createOffer <;> cases hl : b.setLocalDescription <;>
    simp [sentSignals, JsMap.get?_set_self]

theorem C24_witness :
    browserOk.construct = true ∧
    (clientStep ⟨[], 0⟩ browserOk (.userJoined 20)).effects =
      [.createOffer 0, .setLocalDescription 0, .sendWebRTCSignal .offer 20] ∧
    (clientStep ⟨[], 0⟩ browserOk (.userJoined 20)).state.peerConnections.get? 20 =
      some ⟨0, 20, true⟩ ∧
    clientStep twoPeers browserNoConstruct (.userJoined 30) =
      ⟨twoPeers, [.emitError "peerConnection" 30], none⟩ :=
  ⟨rfl, by decide, (C24_user_joined_offers ⟨[], 0⟩ browserOk 20).1 rfl,
    (C24_user_joined_offers twoPeers browserNoConstruct 30).2.1 rfl⟩

/-- C25 as stated fails: a client without a session for connection 20 receives
an `offer` from 20 while the browser rejects `setRemoteDescription`: it sends
no `answer`. -/
theorem C25_counterexample :
    ¬ (∀ (c : Client) (b : Browser) (f : Nat),
        sentSignals (handleSignal c b .offer f).effects = [(.answer, f)]) := by
  intro h
  have h1 := h ⟨[], 0⟩ browserBadRemote 20
  exact absurd h1 (by decide)

/-- C25 amended: on an `offer` from connection `f`, `handleSignal` uses the
session stored under `f` when there is one (the state is unchanged) and
otherwise constructs a non-initiator session and stores it under `f`; when
that construction fails it only emits an error of type `peerConnection`. On
the session so obtained it calls `setRemoteDescription`, `createAnswer` and
`setLocalDescription` in that order: when all three succeed it sends exactly
one `answer` targeted at `f`; when one fails it stops there, sends no signal
and emits an error of type `signaling` for `f`. It never sends an `offer`. -/
theorem C25_offer_is_answered (c : Client) (b : Browser) (f : Nat) :
    (∀ pc, c.peerConnections.get? f = some pc → (handleSignal c b .offer f).state = c) ∧
    (c.peerConnections.get? f = none → b.construct = true →
      (handleSignal c b .offer f).state =
        ⟨c.peerConnections.set f ⟨c.constructed, f, false⟩, c.constructed + 1⟩) ∧
    (c.peerConnections.get? f = none → b.construct = false →
      handleSignal c b .offer f = ⟨c, [.emitError "peerConnection" f], none⟩) ∧
    (∀ pc, (c.peerConnections.get? f = some pc ∨
        (c.peerConnections.get? f = none ∧ b.construct = true ∧
          pc = ⟨c.constructed, f, false⟩)) →
      (b.setRemoteDescription = true → b.createAnswer = true →
        b.setLocalDescription = true →
        (handleSignal c b .offer f).effects =
          [.setRemoteDescription pc.id, .createAnswer pc.id, .setLocalDescription pc.id,
            .sendWebRTCSignal .answer f]) ∧
      (b.setRemoteDescription = false →
        (handleSignal c b .offer f).effects =
          [.setRemoteDescription pc.id, .emitError "signaling" f]) ∧
      (b.setRemoteDescription = true → b.createAnswer = false →
        (handleSignal c b .offer f).effects =
          [.setRemoteDescription pc.id, .createAnswer pc.id, .emitError "signaling" f]) ∧
      (b.setRemoteDescription = true → b.createAnswer = true →
        b.setLocalDescription = false →
        (handleSignal c b .offer f).effects =
          [.setRemoteDescription pc.id, .createAnswer pc.id, .setLocalDescription pc.id,
            .emitError "signaling" f])) ∧
    (sentSignals (handleSignal c b .offer f).effects = [(.answer, f)] ∨
      sentSignals (handleSignal c b .offer f).effects = []) ∧
    clientStep c b (.webrtcSignal .offer f) = handleSignal c b .offer f := by
  refine ⟨?_, ?_, ?_, ?_, ?_, rfl⟩
  · intro pc hpc
    simp only [handleSignal, hpc, handleSignalOn]
    cases b.setRemoteDescription <;> cases b.createAnswer <;>
      cases b.setLocalDescription <;> rfl
  · intro hnone hc
    simp only [handleSignal, hnone, createPeerConnection, hc, handleSignalOn]
    cases b.setRemoteDescription <;> cases b.createAnswer <;>
      cases b.setLocalDescription <;> rfl
  · intro hnone hc
    simp only [handleSignal, hnone, createPeerConnection, hc]
    rfl
  · intro pc hpc
    rcases hpc with hpc | ⟨hnone, hc, rfl⟩
    · simp only [handleSignal, hpc, handleSignalOn]
      cases b.setRemoteDescription <;> cases b.createAnswer <;>
        cases b.setLocalDescription <;> simp
    · simp only [handleSignal, hnone, createPeerConnection, hc, handleSignalOn]
      cases b.setRemoteDescription <;> cases b.createAnswer <;>
        cases b.setLocalDescription <;> simp
  · cases hg : c.peerConnections.get? f with
    | some pc0 =>
      simp only [handleSignal, hg, handleSignalOn]
      cases b.setRemoteDescription <;> cases b.createAnswer <;>
        cases b.setLocalDescription <;> simp [sentSignals]
    | none =>
      simp only [handleSignal, hg, createPeerConnection, handleSignalOn]
      cases b.construct <;> cases b.setRemoteDescription <;> cases b.createAnswer <;>
        cases b.setLocalDescription <;> simp [sentSignals]

theorem C25_witness :
    twoPeers.peerConnections.get? 21 = some ⟨1, 21, false⟩ ∧
    (handleSignal twoPeers browserOk .offer 21).state = twoPeers ∧
    (handleSignal twoPeers browserOk .offer 21).effects =
      [.setRemoteDescription 1, .createAnswer 1, .setLocalDescription 1,
        .sendWebRTCSignal .answer 21] ∧
    (handleSignal twoPeers browserBadRemote .offer 21).effects =
      [.setRemoteDescription 1, .emitError "signaling" 21] ∧
    (handleSignal twoPeers browserOk .offer 30).state =
      ⟨twoPeers.peerConnections.set 30 ⟨2, 30, false⟩, 3⟩ ∧
    handleSignal twoPeers browserNoConstruct .offer 30 =
      ⟨twoPeers, [.emitError "peerConnection" 30], none⟩ :=
  ⟨by decide,
    (C25_offer_is_answered twoPeers browserOk 21).1 ⟨1, 21, false⟩ (by decide),
    ((C25_offer_is_answered twoPeers browserOk 21).2.2.2.1 ⟨1, 21, false⟩
      (Or.inl (by decide))).1 rfl rfl rfl,
    ((C25_offer_is_answered twoPeers browserBadRemote 21).2.2.2.1 ⟨1, 21, false⟩
      (Or.inl (by decide))).2.1 rfl,
    (C25_offer_is_answered twoPeers browserOk 30).2.1 (by decide) rfl,
    (C25_offer_is_answered twoPeers browserNoConstruct 30).2.2.1 (by decide) rfl⟩

/-- C26: on `userLeft` with connection id `s`, a session stored under `s` is
closed and removed and exactly one `peerDisconnected(s)` is emitted; the
session under every other key is untouched; and a second removal of `s`
changes nothing and emits nothing. -/
theorem C26_user_left_removes_session (c : Client) (b : Browser) (s : Nat) :
    (∀ pc, c.peerConnections.get? s = some pc →
      (clientStep c b (.userLeft s)).effects = [.close pc.id, .emitPeerDisconnected s] ∧
      (clientStep c b (.userLeft s)).state.peerConnections = c.peerConnections.delete s ∧
      (clientStep c b (.userLeft s)).state.peerConnections.get? s = none) ∧
    (∀ k, k ≠ s →
      (clientStep c b (.userLeft s)).state.peerConnections.get? k =
        c.peerConnections.get? k) ∧
    clientStep (clientStep c b (.userLeft s)).state b (.userLeft s) =
      ⟨(clientStep c b (.userLeft s)).state, [], none⟩ := by
  cases hg : c.peerConnections.get? s with
  | none =>
    have h1 : clientStep c b (.userLeft s) = ⟨c, [], none⟩ := by
      simp only [clientStep, removePeerConnection, hg]
    rw [h1]
    refine ⟨?_, ?_, h1⟩
    · intro pc hpc
      cases hpc
    · intro k _
      rfl
  | some pc0 =>
    have h1 : clientStep c b (.userLeft s) =
        ⟨{ c with peerConnections := c.peerConnections.delete s },
          [.close pc0.id, .emitPeerDisconnected s], none⟩ := by
      simp only [clientStep, removePeerConnection, hg]
    rw [h1]
    refine ⟨?_, ?_, ?_⟩
    · intro pc hpc
      cases hpc
      exact ⟨rfl, rfl, JsMap.get?_delete_self _ _⟩
    · intro k hk
      exact JsMap.get?_delete_ne _ _ _ hk
    · simp only [clientStep, removePeerConnection, JsMap.get?_delete_self]

theorem C26_witness :
    twoPeers.peerConnections.get? 20 = some ⟨0, 20, true⟩ ∧
    (clientStep twoPeers browserOk (.userLeft 20)).effects =
      [.close 0, .emitPeerDisconnected 20] ∧
    (clientStep twoPeers browserOk (.userLeft 20)).state.peerConnections =
      [(21, ⟨1, 21, false⟩)] ∧
    (21 ≠ 20 ∧
      (clientStep twoPeers browserOk (.userLeft 20)).state.peerConnections.get? 21 =
        twoPeers.peerConnections.get? 21) :=
  ⟨by decide,
    ((C26_user_left_removes_session twoPeers browserOk 20).1 ⟨0, 20, true⟩ (by decide)).1,
    by decide,
    ⟨by decide, (C26_user_left_removes_session twoPeers browserOk 20).2.1 21 (by decide)⟩⟩

end GenZe
